import Mathlib

/-!
Verification of the stage5 deterministic math pipeline
(`stage5/gate.py`, `stage5/extractor.py`, `stage5/solver.py`,
`stage5/verifier.py`, `stage5/explainer.py`, `stage5/pipeline.py`).

Modelling conventions:
- Python strings are `List Char`; `str.lower` is modelled on ASCII letters.
- Python ints are `ℤ` (fields produced by the digit regexes are `ℕ`, since
  `\d+` can only produce non-negative values).
- Python floats are modelled as exact rationals `ℚ`; `math.sqrt` is modelled
  by `sqrtQ`, which agrees with IEEE sqrt on exactly representable perfect
  squares (IEEE sqrt is exact there); no theorem below depends on the value
  of a square root at a non-perfect-square.
- The regular expressions used by the extractor are expressed in a small
  regex fragment `RE` with a backtracking matcher `matchAll` that returns
  candidate matches in Python's backtracking priority order, and `searchG`
  which mirrors `re.search` (leftmost start position wins).
- Code that can raise an uncaught exception is modelled in `Except Unit`.
-/

set_option maxRecDepth 20000

/-- Decidable equality of `Except` results (used to evaluate the model on concrete inputs). -/
instance {ε α : Type} [DecidableEq ε] [DecidableEq α] : DecidableEq (Except ε α) := fun x y =>
  match x, y with
  | .ok a, .ok b =>
    if h : a = b then isTrue (by rw [h])
    else isFalse (fun hc => h (by injection hc))
  | .error a, .error b =>
    if h : a = b then isTrue (by rw [h])
    else isFalse (fun hc => h (by injection hc))
  | .ok _, .error _ => isFalse (fun hc => by injection hc)
  | .error _, .ok _ => isFalse (fun hc => by injection hc)

namespace Stage5

/-- Shorthand turning a Lean string literal into the `List Char` used to model Python strings. -/
def L (s : String) : List Char := s.data

/-- Python regex class `\d` (the inputs are ASCII). -/
def isDigitCh (c : Char) : Bool := ('0' ≤ c) && (c ≤ '9')

/-- Python regex class `\s` (ASCII whitespace as used by `re`). -/
def isSpaceCh (c : Char) : Bool :=
  (c = ' ') || (c = '\t') || (c = '\n') || (c = '\r') || (c = '\x0b') || (c = '\x0c')

/-- Python `str.lower` on a single ASCII character (the pipeline inputs are ASCII). -/
def lowerCh (c : Char) : Char :=
  if ('A' ≤ c) && (c ≤ 'Z') then Char.ofNat (c.toNat + 32) else c

/-- Python `s.lower()`. -/
def lowerStr (s : List Char) : List Char := s.map lowerCh

/-- Python `int()` on a string of decimal digits (as produced by a `\d+` group). -/
def digitsToNat (s : List Char) : ℕ :=
  s.foldl (fun a c => 10 * a + (c.toNat - '0'.toNat)) 0

/-- Python `int()` on an optionally signed digit string (calculus coefficient groups). -/
def parseSignedInt (s : List Char) : ℤ :=
  match s with
  | '+' :: rest => (digitsToNat rest : ℤ)
  | '-' :: rest => -(digitsToNat rest : ℤ)
  | _ => (digitsToNat s : ℤ)

/-- Python `str.isdigit` (nonempty, all decimal digits). -/
def isDigitsStr (s : List Char) : Bool := (!s.isEmpty) && s.all isDigitCh

/-- Python substring test `pat in s`. -/
def containsSub (s : List Char) (pat : String) : Bool :=
  s.tails.any (fun t => pat.data.isPrefixOf t)

/-- The fragment of Python regular expressions used by `stage5/extractor.py`:
literals, character classes, `\d+`, `\d*`, a greedy class star (for `\s*`),
the lazy `.*?`, concatenation, alternation, `(?:...)?` and capturing groups. -/
inductive RE where
  | lit (s : List Char)
  | cls (cs : List Char)
  | digits
  | digitsStar
  | clsStar (cs : List Char)
  | lazyAny
  | cat (r1 r2 : RE)
  | alt (r1 r2 : RE)
  | opt (r : RE)
  | grp (r : RE)

/-- All ways a pattern can match a prefix of `s`, in Python's backtracking
priority order (greedy quantifiers longest-first, lazy `.*?` shortest-first and never
across a newline, since `.` without DOTALL excludes it, alternation left-first);
each entry is (captured groups in order, rest of input). -/
def matchAll : RE → List Char → List (List (List Char) × List Char)
  | .lit l, s => if l.isPrefixOf s then [([], s.drop l.length)] else []
  | .cls cs, s =>
      match s with
      | [] => []
      | c :: rest => if cs.contains c then [([], rest)] else []
  | .digits, s =>
      let run := s.takeWhile isDigitCh
      (List.range run.length).map (fun i => ([], s.drop (run.length - i)))
  | .digitsStar, s =>
      let run := s.takeWhile isDigitCh
      (List.range (run.length + 1)).map (fun i => ([], s.drop (run.length - i)))
  | .clsStar cs, s =>
      let run := s.takeWhile (fun c => cs.contains c)
      (List.range (run.length + 1)).map (fun i => ([], s.drop (run.length - i)))
  | .lazyAny, s =>
      let run := s.takeWhile (fun c => c ≠ '\n')
      (List.range (run.length + 1)).map (fun i => ([], s.drop i))
  | .cat r1 r2, s =>
      (matchAll r1 s).flatMap (fun p =>
        (matchAll r2 p.2).map (fun q => (p.1 ++ q.1, q.2)))
  | .alt r1 r2, s => matchAll r1 s ++ matchAll r2 s
  | .opt r, s => matchAll r s ++ [([], s)]
  | .grp r, s =>
      (matchAll r s).map (fun p => (s.take (s.length - p.2.length) :: p.1, p.2))

/-- Python `re.search`: try each start position left to right, and at the first
position where the pattern matches return the groups of the highest-priority match. -/
def searchG (r : RE) (s : List Char) : Option (List (List Char)) :=
  s.tails.findSome? (fun t => ((matchAll r t).head?).map (fun p => p.1))

/-- Concatenation of a list of patterns. -/
def reCat (l : List RE) : RE := l.foldr RE.cat (.lit [])

/-- Pattern `\s+`. -/
def spc1 : RE := .cat (.cls (L " \t\n\r\x0b\x0c")) (.clsStar (L " \t\n\r\x0b\x0c"))

/-- Pattern `\s*`. -/
def spc0 : RE := .clsStar (L " \t\n\r\x0b\x0c")

/-- The tagged union of the six extracted domain variants
(`Extracted` and its six dataclasses in `stage5/extractor.py`).
`k1`/`k2` are the placeholder fields the extractor always sets to 0. -/
inductive Extracted where
  | combinatorics (n1 k1 n2 k2 : ℕ) (cases : List (ℕ × ℕ))
  | algebra (x2_plus_y2 xy : ℕ)
  | numberTheory (number : ℕ)
  | geometry (radius tangent : ℚ)
  | probability (num_dice target_sum : ℕ)
  | calculus (coefficients : List ℚ)
deriving DecidableEq

/-- Regex `(\d+)\s+men.*?(\d+)\s+women`. -/
def menWomenRE : RE :=
  reCat [.grp .digits, spc1, .lit (L "men"), .lazyAny, .grp .digits, spc1, .lit (L "women")]

/-- Regex `committee\s+of\s+(\d+)|(\d+)\s+people`. -/
def committeeRE : RE :=
  .alt (reCat [.lit (L "committee"), spc1, .lit (L "of"), spc1, .grp .digits])
       (reCat [.grp .digits, spc1, .lit (L "people")])

/-- Regex `at\s+least\s+(\d+)\s+men`. -/
def minMenRE : RE :=
  reCat [.lit (L "at"), spc1, .lit (L "least"), spc1, .grp .digits, spc1, .lit (L "men")]

/-- Regex `at\s+least\s+(\d+)\s+wom[ae]n`. -/
def minWomenRE : RE :=
  reCat [.lit (L "at"), spc1, .lit (L "least"), spc1, .grp .digits, spc1,
         .lit (L "wom"), .cls (L "ae"), .lit (L "n")]

/-- `Stage5Extractor._try_combinatorics`. -/
def tryCombinatorics (raw : List Char) : Option Extracted :=
  let s := lowerStr raw
  if !((containsSub s "committee" || containsSub s "choose" || containsSub s "ways") &&
       (containsSub s "men" && containsSub s "women")) then none
  else
    match searchG menWomenRE s with
    | some (m1 :: m2 :: _) =>
      let total_men := digitsToNat m1
      let total_women := digitsToNat m2
      match searchG committeeRE s with
      | some (sz :: _) =>
        let committee_size := digitsToNat sz
        match searchG minMenRE s, searchG minWomenRE s with
        | some (mm :: _), some (mw :: _) =>
          let min_men := digitsToNat mm
          let min_women := digitsToNat mw
          -- for num_men in range(min_men, min(total_men, committee_size) + 1):
          --   num_women = committee_size - num_men  (a Python int, possibly negative)
          let cases :=
            (List.range' min_men (min total_men committee_size + 1 - min_men)).filterMap
              (fun (num_men : ℕ) =>
                let num_women : ℤ := (committee_size : ℤ) - (num_men : ℤ)
                if (min_women : ℤ) ≤ num_women ∧ num_women ≤ (total_women : ℤ) then
                  some ((num_men, num_women.toNat) : ℕ × ℕ)
                else none)
          if cases = [] then none
          else some (.combinatorics total_men 0 total_women 0 cases)
        | _, _ => none
      | _ => none
    | _ => none

/-- Regex `(?:x\^2|x²|x\*\*2)\s*\+\s*(?:y\^2|y²|y\*\*2)\s*=\s*(\d+)`. -/
def x2y2RE : RE :=
  reCat [.alt (.lit (L "x^2")) (.alt (.lit (L "x²")) (.lit (L "x**2"))), spc0,
         .lit (L "+"), spc0,
         .alt (.lit (L "y^2")) (.alt (.lit (L "y²")) (.lit (L "y**2"))), spc0,
         .lit (L "="), spc0, .grp .digits]

/-- Regex `xy\s*=\s*(\d+)|x\s*\*\s*y\s*=\s*(\d+)`. -/
def xyRE : RE :=
  .alt (reCat [.lit (L "xy"), spc0, .lit (L "="), spc0, .grp .digits])
       (reCat [.lit (L "x"), spc0, .lit (L "*"), spc0, .lit (L "y"), spc0,
               .lit (L "="), spc0, .grp .digits])

/-- `Stage5Extractor._try_algebra`. -/
def tryAlgebra (raw : List Char) : Option Extracted :=
  let s := lowerStr raw
  if !(containsSub s "x^2" || containsSub s "x²" || containsSub s "x**2") then none
  else if !(containsSub s "xy" || containsSub s "x*y") then none
  else
    match searchG x2y2RE s with
    | some (v :: _) =>
      match searchG xyRE s with
      | some (w :: _) =>
        if !(containsSub s "(x + y)^2" || containsSub s "(x+y)^2" || containsSub s "(x + y)²")
        then none
        else some (.algebra (digitsToNat v) (digitsToNat w))
      | _ => none
    | _ => none

/-- Regex `divisors?\s+of\s+(\d+)|factors?\s+of\s+(\d+)`. -/
def divisorsOfRE : RE :=
  .alt (reCat [.lit (L "divisor"), .opt (.lit (L "s")), spc1, .lit (L "of"), spc1, .grp .digits])
       (reCat [.lit (L "factor"), .opt (.lit (L "s")), spc1, .lit (L "of"), spc1, .grp .digits])

/-- `Stage5Extractor._try_number_theory`. -/
def tryNumberTheory (raw : List Char) : Option Extracted :=
  let s := lowerStr raw
  if !((containsSub s "divisor" || containsSub s "factor") && containsSub s "sum") then none
  else
    match searchG divisorsOfRE s with
    | some (v :: _) => some (.numberTheory (digitsToNat v))
    | _ => none

/-- Regex `radius\s+(?:is\s+)?(\d+)`. -/
def radiusRE : RE :=
  reCat [.lit (L "radius"), spc1, .opt (reCat [.lit (L "is"), spc1]), .grp .digits]

/-- Regex `tangent.*?(?:length\s+)?(?:is\s+)?(\d+)`. -/
def tangentRE : RE :=
  reCat [.lit (L "tangent"), .lazyAny, .opt (reCat [.lit (L "length"), spc1]),
         .opt (reCat [.lit (L "is"), spc1]), .grp .digits]

/-- `Stage5Extractor._try_geometry` (the `float(...)` of a digit group is the same ℕ as a ℚ). -/
def tryGeometry (raw : List Char) : Option Extracted :=
  let s := lowerStr raw
  if !(containsSub s "circle" && containsSub s "radius" && containsSub s "tangent") then none
  else
    match searchG radiusRE s with
    | some (r :: _) =>
      match searchG tangentRE s with
      | some (t :: _) => some (.geometry (digitsToNat r : ℚ) (digitsToNat t : ℚ))
      | _ => none
    | _ => none

/-- A right-nested alternation of string literals. -/
def altOfLits : List (List Char) → RE
  | [] => .cls []
  | [w] => .lit w
  | w :: rest => .alt (.lit w) (altOfLits rest)

/-- The twelve dice-count alternatives, in source order. -/
def diceWords : List (List Char) :=
  [L "one", L "two", L "three", L "four", L "five", L "six",
   L "1", L "2", L "3", L "4", L "5", L "6"]

/-- The alternation `one|two|three|four|five|six|1|2|3|4|5|6`, in source order. -/
def diceAltRE : RE := altOfLits diceWords

/-- Regex `(one|two|three|four|five|six|1|2|3|4|5|6)\s+dic[e]`. -/
def numDiceRE : RE :=
  reCat [.grp diceAltRE, spc1, .lit (L "dic"), .cls (L "e")]

/-- Regex `sum\s+(?:is\s+)?(?:exactly\s+)?(\d+)`. -/
def targetSumRE : RE :=
  reCat [.lit (L "sum"), spc1, .opt (reCat [.lit (L "is"), spc1]),
         .opt (reCat [.lit (L "exactly"), spc1]), .grp .digits]

/-- The `word_to_num` lookup with the `int(dice_str) if dice_str.isdigit() else None` default. -/
def diceWordToNum (w : List Char) : Option ℕ :=
  if w = L "one" then some 1
  else if w = L "two" then some 2
  else if w = L "three" then some 3
  else if w = L "four" then some 4
  else if w = L "five" then some 5
  else if w = L "six" then some 6
  else if isDigitsStr w then some (digitsToNat w)
  else none

/-- `Stage5Extractor._try_probability`. -/
def tryProbability (raw : List Char) : Option Extracted :=
  let s := lowerStr raw
  if !(containsSub s "dice" || containsSub s "die") then none
  else
    match searchG numDiceRE s with
    | some (w :: _) =>
      match diceWordToNum w with
      | some num_dice =>
        match searchG targetSumRE s with
        | some (t :: _) => some (.probability num_dice (digitsToNat t))
        | _ => none
      | none => none
    | _ => none

/-- Regex `f\(x\)\s*=\s*([+-]?\d*)\s*x\^3\s*([+-]\s*\d+)\s*x\^2\s*([+-]\s*\d+)\s*x\s*([+-]\s*\d+)`
(applied to the text with spaces removed, as the source does). -/
def cubicRE : RE :=
  reCat [.lit (L "f(x)"), spc0, .lit (L "="), spc0,
         .grp (.cat (.opt (.cls (L "+-"))) .digitsStar), spc0, .lit (L "x^3"), spc0,
         .grp (reCat [.cls (L "+-"), spc0, .digits]), spc0, .lit (L "x^2"), spc0,
         .grp (reCat [.cls (L "+-"), spc0, .digits]), spc0, .lit (L "x"), spc0,
         .grp (reCat [.cls (L "+-"), spc0, .digits])]

/-- The leading-coefficient parse:
`a = int(a_str) if a_str not in ("", "+", "-") else (1 if a_str != "-" else -1)`. -/
def parseLeadCoeff (w : List Char) : ℤ :=
  if w = [] ∨ w = ['+'] ∨ w = ['-'] then (if w = ['-'] then -1 else 1)
  else parseSignedInt w

/-- `Stage5Extractor._try_calculus` (groups 2 to 4 have their spaces removed before `int()`,
as in the source's `.replace(" ", "")`). -/
def tryCalculus (raw : List Char) : Option Extracted :=
  let s := lowerStr raw
  if !(containsSub s "f(x)") then none
  else if !(containsSub s "extrem" || containsSub s "maximum" || containsSub s "minimum") then none
  else
    match searchG cubicRE (s.filter (fun c => c ≠ ' ')) with
    | some (g1 :: g2 :: g3 :: g4 :: _) =>
      let a := parseLeadCoeff g1
      let b := parseSignedInt (g2.filter (fun c => c ≠ ' '))
      let c := parseSignedInt (g3.filter (fun c => c ≠ ' '))
      let d := parseSignedInt (g4.filter (fun c => c ≠ ' '))
      some (.calculus [(a : ℚ), (b : ℚ), (c : ℚ), (d : ℚ)])
    | _ => none

/-- `Stage5Extractor.extract`: try the six domain rules in their fixed priority order,
return the first match. -/
def extract (raw : List Char) : Option Extracted :=
  [tryCombinatorics, tryAlgebra, tryNumberTheory, tryGeometry, tryProbability,
   tryCalculus].findSome? (fun f => f raw)

/-! ## Solver (`stage5/solver.py`) -/

/-- The inner `while n % d == 0: factors[d] += 1; n //= d` loop of
`Stage5Solver._prime_factorization`: the exponent of `d` removed and the remaining cofactor.
The `2 ≤ d` and `n ≠ 0` guards are termination guards; at every call site `d ≥ 2` and
`n ≥ 1`, so they do not change the modelled behaviour. -/
def divCount (d n : ℕ) : ℕ × ℕ :=
  if h : 2 ≤ d ∧ n ≠ 0 ∧ n % d = 0 then
    ((divCount d (n / d)).1 + 1, (divCount d (n / d)).2)
  else (0, n)
termination_by n
decreasing_by
  all_goals exact Nat.div_lt_self (Nat.pos_of_ne_zero h.2.1) h.1

theorem divCount_snd_le (d n : ℕ) : (divCount d n).2 ≤ n := by
  induction n using Nat.strong_induction_on with
  | _ n ih =>
    rw [divCount]
    split
    · next h =>
      have hlt : n / d < n := Nat.div_lt_self (Nat.pos_of_ne_zero h.2.1) h.1
      exact le_trans (ih _ hlt) (le_of_lt hlt)
    · exact le_refl n

/-- The outer trial-division loop of `Stage5Solver._prime_factorization`
(`while d*d <= n`, incrementing `d`, then `if n > 1: factors[n] = 1`),
as the insertion-ordered association list of (prime, exponent) pairs. -/
def pf (d n : ℕ) : List (ℕ × ℕ) :=
  if h : d * d ≤ n then
    if (divCount d n).1 = 0 then pf (d + 1) n
    else (d, (divCount d n).1) :: pf (d + 1) (divCount d n).2
  else if 1 < n then [(n, 1)] else []
termination_by n + 2 - d
decreasing_by
  · have hdn : d ≤ n + 1 := by
      rcases le_or_lt d 1 with h1 | h1
      · omega
      · have : d ≤ d * d := Nat.le_mul_of_pos_left d (by omega)
        omega
    omega
  · have hdn : d ≤ n + 1 := by
      rcases le_or_lt d 1 with h1 | h1
      · omega
      · have : d ≤ d * d := Nat.le_mul_of_pos_left d (by omega)
        omega
    have := divCount_snd_le d n
    omega

/-- `Stage5Solver._solve_number_theory`: σ(n) by the multiplicative formula
`sigma = 1; for prime, exp in factors.items(): sigma *= (prime**(exp+1) - 1) // (prime - 1)`. -/
def sigmaFactored (n : ℕ) : ℕ :=
  ((pf 2 n).map (fun pe => (pe.1 ^ (pe.2 + 1) - 1) / (pe.1 - 1))).foldl (· * ·) 1

/-- Model of Python `math.sqrt` on the rationals standing in for IEEE floats.
IEEE sqrt is exact whenever the true square root is exactly representable, and this
model is exact on rational perfect squares; its value elsewhere (a floor-based
approximation rather than a correctly rounded one) is never relied on by a theorem. -/
def sqrtQ (q : ℚ) : ℚ := (Nat.sqrt q.num.toNat : ℚ) / (Nat.sqrt q.den : ℚ)

/-- All outcome tuples of `itertools.product(range(1, 7), repeat=num_dice)`. -/
def diceOutcomes : ℕ → List (List ℕ)
  | 0 => [[]]
  | n + 1 => (List.range' 1 6).flatMap (fun v => (diceOutcomes n).map (fun t => v :: t))

/-- `Stage5Solver._count_dice_sum`: brute-force count of the outcomes with the target sum. -/
def countDiceSum (numDice targetSum : ℕ) : ℕ :=
  ((diceOutcomes numDice).filter (fun o => o.sum = targetSum)).length

/-- Python `round(x, 6)` (used by `_solve_calculus` on critical points and values).
Ties round half-up here where CPython rounds half-even on the underlying binary float;
no theorem below evaluates this at a tie. -/
def pyRound6 (q : ℚ) : ℚ := ((round (q * 1000000) : ℤ) : ℚ) / 1000000

/-- A solver result: a Python int, a Python float, or the calculus extrema list. -/
inductive SolverAnswer where
  | int (z : ℤ)
  | rat (q : ℚ)
  | extrema (l : List (List Char × ℚ × ℚ))
deriving DecidableEq

/-- `Stage5Solver._solve_calculus`. When the discriminant is non-negative and `3a = 0`,
the division by `2*A` raises `ZeroDivisionError` (propagated to the pipeline's
`SOLVER_ERROR` handler), modelled by `Except.error`. -/
def solveCalculus (coefficients : List ℚ) : Except Unit SolverAnswer :=
  match coefficients with
  | [a, b, c, d] =>
    let A := 3 * a
    let B := 2 * b
    let C := c
    let disc := B ^ 2 - 4 * A * C
    if disc < 0 then .ok (.extrema [])
    else if A = 0 then .error ()
    else
      let x1 := (-B + sqrtQ disc) / (2 * A)
      let x2 := (-B - sqrtQ disc) / (2 * A)
      let classify := fun (x : ℚ) =>
        let fpp := 6 * a * x + 2 * b
        let fval := a * x ^ 3 + b * x ^ 2 + c * x + d
        if fpp < 0 then [((L "max", pyRound6 x, pyRound6 fval) : List Char × ℚ × ℚ)]
        else if fpp > 0 then [((L "min", pyRound6 x, pyRound6 fval) : List Char × ℚ × ℚ)]
        else []
      .ok (.extrema ((classify x1 ++ classify x2).mergeSort (fun t1 t2 => t1.2.1 ≤ t2.2.1)))
  | _ => .error ()

/-- `Stage5Solver.solve`: dispatch on the variant tag. Only the calculus branch can raise
(all other branches are total on the values the extractor can produce). -/
def solveExtracted : Extracted → Except Unit SolverAnswer
  | .combinatorics n1 _ n2 _ cases =>
      .ok (.int (cases.foldl
        (fun acc c => acc + ((Nat.choose n1 c.1 * Nat.choose n2 c.2 : ℕ) : ℤ)) 0))
  | .algebra x2_plus_y2 xy => .ok (.int ((x2_plus_y2 : ℤ) + 2 * (xy : ℤ)))
  | .numberTheory n => .ok (.int ((sigmaFactored n : ℕ) : ℤ))
  | .geometry radius tangent => .ok (.rat (sqrtQ (radius ^ 2 + tangent ^ 2)))
  | .probability num_dice target_sum =>
      .ok (.rat ((countDiceSum num_dice target_sum : ℚ) / ((6 : ℚ) ^ num_dice)))
  | .calculus coefficients => solveCalculus coefficients

/-! ## Verifier (`stage5/verifier.py`) -/

/-- `VerifyResult` of `stage5/verifier.py` (guard fields are all `None` on success). -/
structure VerifyResult where
  ok : Bool
  guard_code : Option (List Char)
  guard_state : Option (List Char)
  guard_action : Option (List Char)
  reason : Option (List Char)
deriving DecidableEq

/-- A check outcome: `none` models a check that raises an exception when evaluated. -/
abbrev CheckOutcome := Option Bool

/-- `Stage5Verifier._run_checks` from index `i`: first `False` check gives `VERIFY_FAIL`
with the failing index, a raising check gives `VERIFY_ERROR` (the `{e!r}` suffix of the
exception reason is not modelled), and if all checks pass the result is `VerifyResult(ok=True)`. -/
def runChecksFrom (i : ℕ) : List CheckOutcome → VerifyResult
  | [] => ⟨true, none, none, none, none⟩
  | some true :: rest => runChecksFrom (i + 1) rest
  | some false :: _ =>
      ⟨false, some (L "VERIFY_FAIL"), some (L "VERIFY_FAIL"), some (L "STOP"),
       some (L "Verifier check " ++ (Nat.repr i).data ++ L " failed.")⟩
  | none :: _ =>
      ⟨false, some (L "VERIFY_ERROR"), some (L "VERIFY_ERROR"), some (L "STOP"),
       some (L "Verifier exception")⟩

def runChecks (checks : List CheckOutcome) : VerifyResult := runChecksFrom 0 checks

/-- Python `%` on exact numbers: raises `ZeroDivisionError` on a zero divisor, otherwise
`q - m * floor(q / m)` (the floored modulo Python uses for both ints and floats). -/
def pyMod (q m : ℚ) : Option ℚ :=
  if m = 0 then none else some (q - m * (⌊q / m⌋ : ℚ))

/-- The verifier's recomputation `sum(comb(ex.n1, k1) * comb(ex.n2, k2) for k1, k2 in ex.cases)`. -/
def combRecompute (n1 n2 : ℕ) (cases : List (ℕ × ℕ)) : ℕ :=
  (cases.map (fun c => Nat.choose n1 c.1 * Nat.choose n2 c.2)).sum

/-- The check `all(answer % comb(ex.n1, k1) == 0 for k1, _ in ex.cases)`:
the generator stops at the first `False`; a zero binomial coefficient raises at its turn. -/
def combDivChecks (n1 : ℕ) (q : ℚ) : List (ℕ × ℕ) → CheckOutcome
  | [] => some true
  | c :: rest =>
    match pyMod q ((Nat.choose n1 c.1 : ℕ) : ℚ) with
    | none => none
    | some r => if r = 0 then combDivChecks n1 q rest else some false

/-- `Stage5Verifier._verify_combinatorics` (the dynamically typed `answer` as an exact number). -/
def verifyCombinatorics (n1 n2 : ℕ) (cases : List (ℕ × ℕ)) (answer : ℚ) : VerifyResult :=
  runChecks
    [some (decide (answer = (combRecompute n1 n2 cases : ℚ))),
     some (decide (answer > 0)),
     combDivChecks n1 answer cases]

/-- `Stage5Verifier._verify_algebra`. -/
def verifyAlgebra (x2_plus_y2 xy : ℕ) (answer : ℚ) : VerifyResult :=
  runChecks
    [some (decide (answer = (x2_plus_y2 : ℚ) + 2 * (xy : ℚ))),
     some (decide (answer > 0))]

/-- `Stage5Verifier._get_divisors`: every `i` up to the loop bound `int(n**0.5)` with
`n % i == 0` contributes `i` and, when distinct, `n // i`; the result is sorted.
The source's loop bound is float-derived; it equals the exact integer square root used
here whenever `n ≤ 2^52` (below `2^53` the float conversion of `n` is exact and a
correctly rounded square root cannot cross an integer boundary), but for larger `n` it
can fall below it: at `n = (2^53+1)^2` the real loop stops at `2^53` and misses the
divisor `2^53+1`. Theorems equating this enumeration with the factorization sum
therefore carry the hypothesis `n ≤ 2^52`. -/
def getDivisors (n : ℕ) : List ℕ :=
  ((List.range' 1 (Nat.sqrt n)).flatMap (fun i =>
    if n % i = 0 then (if i ≠ n / i then [i, n / i] else [i]) else [])).mergeSort
    (fun a b => a ≤ b)

/-- The verifier's recomputation `sum(self._get_divisors(ex.number))`. -/
def ntRecompute (number : ℕ) : ℕ := (getDivisors number).sum

/-- `Stage5Verifier._verify_number_theory`. -/
def verifyNumberTheory (number : ℕ) (answer : ℚ) : VerifyResult :=
  runChecks
    [some (decide (answer = (ntRecompute number : ℚ))),
     some (decide (answer ≥ (number : ℚ) + 1)),
     some (decide (answer > (number : ℚ)))]

/-- Python `math.isclose(a, b, rel_tol=1e-9)` on the exact values
(`abs(a-b) <= max(rel_tol * max(abs(a), abs(b)), abs_tol)` with `abs_tol = 0`). -/
def pyIsClose (a b : ℚ) : Bool :=
  decide (|a - b| ≤ (1 / 1000000000) * max |a| |b|)

/-- `Stage5Verifier._verify_geometry`. -/
def verifyGeometry (radius tangent : ℚ) (answer : ℚ) : VerifyResult :=
  runChecks
    [some (pyIsClose answer (sqrtQ (radius ^ 2 + tangent ^ 2))),
     some (decide (answer > radius)),
     some (decide (answer > tangent))]

/-- `Stage5Verifier._verify_probability`. -/
def verifyProbability (answer : ℚ) : VerifyResult :=
  runChecks
    [some (decide (0 ≤ answer ∧ answer ≤ 1)),
     some (decide (answer > 0))]

/-- `Stage5Verifier._verify_calculus` on a list answer. -/
def verifyCalculus (answer : List (List Char × ℚ × ℚ)) : VerifyResult :=
  runChecks
    [some (decide (answer.length ≤ 2)),
     some (answer.all (fun t => decide (t.1 = L "max" ∨ t.1 = L "min")))]

/-- The numeric value of a solver answer, if it is a number (`int` and `float` live in
the same numeric tower in Python, so the per-domain verifiers compare exact values). -/
def toQ : SolverAnswer → Option ℚ
  | .int z => some (z : ℚ)
  | .rat q => some q
  | .extrema _ => none

/-- `Stage5Verifier.verify`: dispatch on the variant tag. On an answer of the wrong
dynamic type (impossible on the pipeline path, where the answer comes from the solver
for the same variant): a list compares unequal to a recomputed number, so check 0 fails
in the first three domains; an ordered comparison between a list and a number raises
`TypeError` inside check 0 for geometry and probability; the calculus branch checks
`isinstance(answer, list)` explicitly. The source's final `UNSUPPORTED_KIND` arm is
unreachable over the closed six-tag enum and has no counterpart here. -/
def verify (ex : Extracted) (a : SolverAnswer) : VerifyResult :=
  match ex with
  | .combinatorics n1 _ n2 _ cases =>
    match toQ a with
    | some q => verifyCombinatorics n1 n2 cases q
    | none => runChecks [some false]
  | .algebra x2_plus_y2 xy =>
    match toQ a with
    | some q => verifyAlgebra x2_plus_y2 xy q
    | none => runChecks [some false]
  | .numberTheory number =>
    match toQ a with
    | some q => verifyNumberTheory number q
    | none => runChecks [some false]
  | .geometry radius tangent =>
    match toQ a with
    | some q => verifyGeometry radius tangent q
    | none => runChecks [none]
  | .probability _ _ =>
    match toQ a with
    | some q => verifyProbability q
    | none => runChecks [none]
  | .calculus _ =>
    match a with
    | .extrema l => verifyCalculus l
    | _ =>
      ⟨false, some (L "VERIFY_FAIL"), some (L "VERIFY_FAIL"), some (L "STOP"),
       some (L "Calculus answer must be a list of extrema")⟩

/-! ## Explainer (`stage5/explainer.py`) and answer formatting (`Stage5Pipeline._format_answer`) -/

/-- Python `str` of a natural number. -/
def natRepr (n : ℕ) : List Char := (Nat.repr n).data

/-- Python `str` of an int. -/
def intRepr (z : ℤ) : List Char :=
  if z < 0 then '-' :: natRepr z.natAbs else natRepr z.toNat

/-- Stand-in for Python `str` of a float: exact for integral values (`10.0` style);
the short-roundtrip decimal rendering of non-integral floats is not reproduced.
This only ever appears inside derivation text, whose content no theorem relies on. -/
def pyFloatRepr (q : ℚ) : List Char :=
  if q.den = 1 then intRepr q.num ++ L ".0"
  else intRepr q.num ++ L "/" ++ natRepr q.den

/-- Python `int()` on a float value: truncation toward zero. -/
def pyTruncInt (q : ℚ) : ℤ := if q < 0 then ⌈q⌉ else ⌊q⌋

/-- Python `str.capitalize` (on the ASCII tags `max`/`min`). -/
def capitalizeStr : List Char → List Char
  | [] => []
  | c :: rest => c.toUpper :: rest

/-- Python `sep.join(parts)`. -/
def joinSep (sep : List Char) (parts : List (List Char)) : List Char :=
  List.intercalate sep parts

/-- Python `"{:.<k>f}".format(q)` on the exact value: fixed-point rendering with `k`
decimals. Ties round half-up here where CPython rounds half-even on the underlying
binary float; no theorem below evaluates a tie. -/
def fixFmt (k : ℕ) (q : ℚ) : List Char :=
  let scaled : ℤ := round (|q| * (10 : ℚ) ^ k)
  let ip := scaled / (10 : ℤ) ^ k
  let fp := (scaled % (10 : ℤ) ^ k).toNat
  (if q < 0 then ['-'] else []) ++ intRepr ip ++ ['.'] ++
    (List.replicate (k - (natRepr fp).length) '0' ++ natRepr fp)

/-- The rendering of `{answer}` inside an explainer f-string (an int or a float on
every reachable path; a list answer never reaches an explainer f-string). -/
def answerRepr : SolverAnswer → List Char
  | .int z => intRepr z
  | .rat q => pyFloatRepr q
  | .extrema _ => L "[extrema]"

/-- `Stage5Explainer.explain`: the multi-line derivation string, built purely from the
variant's fields and the supplied answer. Rendering of non-integral floats inside the
text goes through the approximate `pyFloatRepr`/`fixFmt`; no theorem relies on the
content of this text. -/
def explain (ex : Extracted) (a : SolverAnswer) : List Char :=
  match ex with
  | .combinatorics n1 _ n2 _ cases =>
      L "Combinatorics (Committee Selection):\n" ++
      joinSep (L "\n") (cases.map (fun c =>
        L "  Case (" ++ natRepr c.1 ++ L " men, " ++ natRepr c.2 ++ L " women): C(" ++
        natRepr n1 ++ L "," ++ natRepr c.1 ++ L ") × C(" ++ natRepr n2 ++ L "," ++
        natRepr c.2 ++ L ") = " ++ natRepr (Nat.choose n1 c.1 * Nat.choose n2 c.2))) ++
      L "\nTotal = " ++ answerRepr a
  | .algebra x2_plus_y2 xy =>
      L "Algebra:\n  Given: x² + y² = " ++ natRepr x2_plus_y2 ++ L ", xy = " ++ natRepr xy ++
      L "\n  Formula: (x + y)² = x² + 2xy + y²\n  (x + y)² = " ++ natRepr x2_plus_y2 ++
      L " + 2×" ++ natRepr xy ++ L " = " ++ answerRepr a
  | .numberTheory number =>
      L "Number Theory (Divisor Sum):\n  Number: " ++ natRepr number ++
      L "\n  Sum of all divisors: σ(" ++ natRepr number ++ L ") = " ++ answerRepr a
  | .geometry radius tangent =>
      L "Geometry (Pythagorean Theorem):\n  Radius: " ++ pyFloatRepr radius ++
      L ", Tangent: " ++ pyFloatRepr tangent ++
      L "\n  OP² = " ++ pyFloatRepr radius ++ L "² + " ++ pyFloatRepr tangent ++ L "² = " ++
      pyFloatRepr (radius ^ 2) ++ L " + " ++ pyFloatRepr (tangent ^ 2) ++
      L "\n  OP = √" ++ pyFloatRepr (radius ^ 2 + tangent ^ 2) ++ L " = " ++ answerRepr a
  | .probability num_dice target_sum =>
      let q : ℚ := match a with | .int z => (z : ℚ) | .rat q => q | .extrema _ => 0
      let total : ℕ := 6 ^ num_dice
      let favorable : ℤ := pyTruncInt (q * (total : ℚ))
      L "Probability (Dice Sum):\n  " ++ natRepr num_dice ++ L " dice, target sum = " ++
      natRepr target_sum ++ L "\n  Favorable outcomes: " ++ intRepr favorable ++
      L "\n  Total outcomes: " ++ natRepr total ++ L "\n  Probability: " ++
      intRepr favorable ++ L "/" ++ natRepr total ++ L " = " ++ fixFmt 6 q
  | .calculus coefficients =>
      match coefficients with
      | [a0, b0, c0, d0] =>
        let lines :=
          match a with
          | .extrema l =>
            l.foldl (fun acc t =>
              acc ++ L "    " ++ capitalizeStr t.1 ++ L " at x=" ++ fixFmt 2 t.2.1 ++
              L ", f(x)=" ++ fixFmt 2 t.2.2 ++ L "\n") []
          | _ => []
        L "Calculus (Local Extrema):\n  f(x) = " ++ pyFloatRepr a0 ++ L "x³ + " ++
        pyFloatRepr b0 ++ L "x² + " ++ pyFloatRepr c0 ++ L "x + " ++ pyFloatRepr d0 ++
        L "\n  f\x27(x) = " ++ pyFloatRepr (3 * a0) ++ L "x² + " ++ pyFloatRepr (2 * b0) ++
        L "x + " ++ pyFloatRepr c0 ++ L "\n  Critical points found:\n" ++ lines
      | _ => []

/-- Python `s.rstrip(c)` for a single character. -/
def rstripCh (c : Char) (s : List Char) : List Char :=
  (s.reverse.dropWhile (fun x => x = c)).reverse

/-- `Stage5Pipeline._format_answer`: extrema lists become comma-joined
`"<type> at x=… (f=…)"` entries; a float close to an integer becomes that integer's
decimal string, any other float is printed with six decimals and stripped of trailing
zeros and the trailing point; anything else goes through `str`. -/
def formatAnswer : SolverAnswer → List Char
  | .extrema l =>
      joinSep (L ", ") (l.map (fun t =>
        t.1 ++ L " at x=" ++ fixFmt 2 t.2.1 ++ L " (f=" ++ fixFmt 2 t.2.2 ++ L ")"))
  | .rat q =>
      if |q - ((round q : ℤ) : ℚ)| < 1 / 1000000000 then intRepr (round q)
      else rstripCh '.' (rstripCh '0' (fixFmt 6 q))
  | .int z => intRepr z

/-! ## Gate (`stage5/gate.py`) and pipeline (`stage5/pipeline.py`) -/

/-- A Python value as stored in the input record: an int, a string, or anything else
(a non-string never equals a string literal and fails `isinstance` checks). -/
inductive PyVal where
  | int (z : ℤ)
  | str (s : List Char)
  | other
deriving DecidableEq

/-- The input record, restricted to the keys the gate and pipeline read
(`kind`, `n1`, `k1`, `n2`, `k2`, `raw`, `problem`, `text`); all other keys
are never inspected by the modelled code. -/
structure ProblemData where
  kind : Option PyVal
  n1 : Option PyVal
  k1 : Option PyVal
  n2 : Option PyVal
  k2 : Option PyVal
  raw : Option PyVal
  problem : Option PyVal
  text : Option PyVal
deriving DecidableEq

/-- `GateRoute`. -/
inductive GateRoute where
  | STRUCTURED
  | PATTERNABLE
  | UNTRUSTED
deriving DecidableEq

/-- The `.value` string of a route. -/
def GateRoute.val : GateRoute → List Char
  | .STRUCTURED => L "STRUCTURED"
  | .PATTERNABLE => L "PATTERNABLE"
  | .UNTRUSTED => L "UNTRUSTED"

/-- `GateDecision`. -/
structure GateDecision where
  route : GateRoute
  guard_code : Option (List Char)
  guard_state : Option (List Char)
  guard_action : Option (List Char)
  reason : Option (List Char)
deriving DecidableEq

/-- Python truthiness of `val.strip()`: the string has a non-whitespace character. -/
def strippedNonempty (s : List Char) : Bool := s.any (fun c => !(isSpaceCh c))

/-- The raw-text lookup `for key in ("raw", "problem", "text")` shared by
`Stage5Gate._get_raw` and `Stage5Pipeline._handle_patternable`. -/
def pickRaw : List (Option PyVal) → Option (List Char)
  | [] => none
  | some (.str s) :: rest => if strippedNonempty s then some s else pickRaw rest
  | _ :: rest => pickRaw rest

/-- `Stage5Gate._is_already_structured`. -/
def isAlreadyStructured (pd : ProblemData) : Bool :=
  if pd.kind = some (.str (L "nCk_times_nCk")) then
    [pd.n1, pd.k1, pd.n2, pd.k2].all (fun v =>
      match v with
      | some (.int _) => true
      | _ => false)
  else false

/-- `Stage5Gate._is_patternable`: the six keyword disjunctions. -/
def isPatternable (raw : List Char) : Bool :=
  let s := lowerStr raw
  ((containsSub s "committee" || containsSub s "choose" || containsSub s "ways") &&
    (containsSub s "men" && containsSub s "women")) ||
  ((containsSub s "x^2" || containsSub s "x²" || containsSub s "x**2") &&
    (containsSub s "xy" || containsSub s "x*y")) ||
  ((containsSub s "divisor" || containsSub s "factor") && containsSub s "sum") ||
  (containsSub s "circle" && containsSub s "radius" && containsSub s "tangent") ||
  ((containsSub s "dice" || containsSub s "die") &&
    (containsSub s "sum" || containsSub s "probability")) ||
  (containsSub s "f(x)" &&
    (containsSub s "extrem" || containsSub s "maximum" || containsSub s "minimum"))

/-- `Stage5Gate.decide`. -/
def gateDecide (pd : ProblemData) : GateDecision :=
  if isAlreadyStructured pd then ⟨.STRUCTURED, none, none, none, none⟩
  else
    match pickRaw [pd.raw, pd.problem, pd.text] with
    | some raw =>
      if isPatternable raw then ⟨.PATTERNABLE, none, none, none, none⟩
      else
        ⟨.UNTRUSTED, some (L "OBS_UNTRUSTED"), some (L "OBS_UNTRUSTED"), some (L "STOP"),
         some (L "Input is neither structured nor patternable with deterministic rules.")⟩
    | none =>
      ⟨.UNTRUSTED, some (L "OBS_UNTRUSTED"), some (L "OBS_UNTRUSTED"), some (L "STOP"),
       some (L "Input is neither structured nor patternable with deterministic rules.")⟩

/-- The pipeline's `Stage5Response`. A successful PATTERNABLE answer is the formatted
string; a successful STRUCTURED answer is the raw int the legacy compute produced. -/
inductive RespAnswer where
  | int (z : ℤ)
  | str (s : List Char)
deriving DecidableEq

/-- `Stage5Response` (field order as in the dataclass). -/
structure Stage5Response where
  ok : Bool
  answer : Option RespAnswer
  text : List Char
  guard_code : Option (List Char)
  guard_state : Option (List Char)
  guard_action : Option (List Char)
  route : Option (List Char)
  reason : Option (List Char)
deriving DecidableEq

/-- Python `math.comb`: raises `ValueError` on a negative argument, and is
`C(n, k)` (zero when `k > n`) otherwise. -/
def pyComb (n k : ℤ) : Except Unit ℤ :=
  if n < 0 ∨ k < 0 then .error () else .ok ((Nat.choose n.toNat k.toNat : ℕ) : ℤ)

/-- The rendering of `{kind}` inside the unsupported-kind reason f-string. -/
def pyStrOfVal : Option PyVal → List Char
  | none => L "None"
  | some (.int z) => intRepr z
  | some (.str s) => s
  | some .other => L "<object>"

/-- `Stage5Pipeline._handle_structured`. The unsupported-kind branch is kept even
though the gate only routes STRUCTURED when `kind` is exactly `nCk_times_nCk`.
`math.comb` on a negative field raises an uncaught `ValueError` (`Except.error`);
the field reads cannot fail behind the gate's `isinstance` checks. -/
def handleStructured (pd : ProblemData) (decision : GateDecision) :
    Except Unit Stage5Response :=
  if pd.kind ≠ some (.str (L "nCk_times_nCk")) then
    .ok ⟨false, none, [], some (L "UNSUPPORTED_KIND"), some (L "UNSUPPORTED_KIND"),
         some (L "STOP"), some decision.route.val,
         some (L "Unsupported structured kind: " ++ pyStrOfVal pd.kind)⟩
  else
    match pd.n1, pd.k1, pd.n2, pd.k2 with
    | some (.int n1), some (.int k1), some (.int n2), some (.int k2) =>
      match pyComb n1 k1, pyComb n2 k2 with
      | .ok c1, .ok c2 =>
        .ok ⟨true, some (.int (c1 * c2)),
             L "Structured compute: C(" ++ intRepr n1 ++ L "," ++ intRepr k1 ++ L ") × C(" ++
               intRepr n2 ++ L "," ++ intRepr k2 ++ L ") = " ++ intRepr (c1 * c2),
             none, none, none, some decision.route.val, none⟩
      | .error e, _ => .error e
      | _, .error e => .error e
    | _, _, _, _ => .error ()

/-- The tail of `Stage5Pipeline._handle_patternable` after the solver succeeded
(verify, then either the guarded halt or explain-and-format). -/
def handleFromSolved (ex : Extracted) (answer : SolverAnswer) (routeVal : List Char) :
    Stage5Response :=
  let vr := verify ex answer
  if vr.ok then
    ⟨true, some (.str (formatAnswer answer)), explain ex answer,
     none, none, none, some routeVal, none⟩
  else
    ⟨false, none, [], vr.guard_code, vr.guard_state, vr.guard_action,
     some routeVal, vr.reason⟩

/-- `Stage5Pipeline._handle_patternable` (the solver-exception reason's `{e!r}` suffix
is not modelled). -/
def handlePatternable (pd : ProblemData) (decision : GateDecision) : Stage5Response :=
  match pickRaw [pd.raw, pd.problem, pd.text] with
  | none =>
    ⟨false, none, [], some (L "NO_RAW_TEXT"), some (L "NO_RAW_TEXT"), some (L "STOP"),
     some decision.route.val, some (L "No raw text found in input")⟩
  | some raw =>
    match extract raw with
    | none =>
      ⟨false, none, [], some (L "EXTRACT_FAIL"), some (L "EXTRACT_FAIL"), some (L "STOP"),
       some decision.route.val,
       some (L "Deterministic extraction failed - pattern not recognized")⟩
    | some ex =>
      match solveExtracted ex with
      | .error _ =>
        ⟨false, none, [], some (L "SOLVER_ERROR"), some (L "SOLVER_ERROR"), some (L "STOP"),
         some decision.route.val, some (L "Solver exception")⟩
      | .ok answer => handleFromSolved ex answer decision.route.val

/-- `Stage5Pipeline.solve`, the single entry point. An `Except.error` result models an
uncaught exception escaping `solve` (only possible on the STRUCTURED path, from
`math.comb` on a negative field); every other path returns a `Stage5Response`. -/
def stage5Solve (pd : ProblemData) : Except Unit Stage5Response :=
  let decision := gateDecide pd
  match decision.route with
  | .UNTRUSTED =>
    .ok ⟨false, none, [], decision.guard_code, decision.guard_state, decision.guard_action,
         some decision.route.val, decision.reason⟩
  | .STRUCTURED => handleStructured pd decision
  | .PATTERNABLE => .ok (handlePatternable pd decision)

/-! ## Concrete records used to evaluate the pipeline -/

/-- A record with none of the recognized keys. -/
def emptyPD : ProblemData := ⟨none, none, none, none, none, none, none, none⟩

/-- The canonical combinatorics problem text (the extractor's documented example). -/
def canonCombText : List Char :=
  L "A committee of 5 people from 6 men and 4 women. Must contain at least 3 men and at least 1 woman."

/-- A record carrying the canonical combinatorics text under the `problem` key. -/
def canonCombPD : ProblemData :=
  ⟨none, none, none, none, none, none, some (.str canonCombText), none⟩

/-- A pre-structured record of the legacy `nCk_times_nCk` shape. -/
def structPD : ProblemData :=
  ⟨some (.str (L "nCk_times_nCk")), some (.int 6), some (.int 3), some (.int 4), some (.int 2),
   none, none, none⟩

/-! ## C1: text silence and null answer on every halted path -/

/-- C1. Every `Stage5Response` the pipeline's solve entry point returns with `ok = false`
has an empty derivation text and a `None` answer, on every halted path (the UNTRUSTED
route, NO_RAW_TEXT, EXTRACT_FAIL, SOLVER_ERROR, the verifier's guards, and the
UNSUPPORTED_KIND branch). -/
theorem halted_response_text_empty_answer_none (pd : ProblemData) (r : Stage5Response)
    (h : stage5Solve pd = .ok r) (hok : r.ok = false) : r.text = [] ∧ r.answer = none := by
  simp only [stage5Solve] at h
  split at h
  · injection h with h
    subst h
    exact ⟨rfl, rfl⟩
  · simp only [handleStructured] at h
    split at h
    · injection h with h
      subst h
      exact ⟨rfl, rfl⟩
    · split at h
      · split at h
        · injection h with h
          subst h
          simp at hok
        · exact absurd h (by simp)
        · exact absurd h (by simp)
      · exact absurd h (by simp)
  · injection h with h
    simp only [handlePatternable] at h
    split at h
    · subst h
      exact ⟨rfl, rfl⟩
    · split at h
      · subst h
        exact ⟨rfl, rfl⟩
      · split at h
        · subst h
          exact ⟨rfl, rfl⟩
        · subst h
          simp only [handleFromSolved] at hok ⊢
          split at hok <;> simp_all

/-- Witness for C1: the empty record halts on the UNTRUSTED route with empty text and
no answer. -/
theorem halted_response_text_empty_answer_none_witness :
    stage5Solve emptyPD =
      .ok ⟨false, none, [], some (L "OBS_UNTRUSTED"), some (L "OBS_UNTRUSTED"),
           some (L "STOP"), some (L "UNTRUSTED"),
           some (L "Input is neither structured nor patternable with deterministic rules.")⟩ ∧
    (Stage5Response.text ⟨false, none, [], some (L "OBS_UNTRUSTED"), some (L "OBS_UNTRUSTED"),
        some (L "STOP"), some (L "UNTRUSTED"),
        some (L "Input is neither structured nor patternable with deterministic rules.")⟩ = [] ∧
      Stage5Response.answer ⟨false, none, [], some (L "OBS_UNTRUSTED"), some (L "OBS_UNTRUSTED"),
        some (L "STOP"), some (L "UNTRUSTED"),
        some (L "Input is neither structured nor patternable with deterministic rules.")⟩ = none) :=
  ⟨by decide, halted_response_text_empty_answer_none emptyPD _ (by decide) rfl⟩

/-! ## C4: the canonical combinatorics input -/

/-- C4. On the canonical committee text (5 people from 6 men and 4 women, at least
3 men and at least 1 woman) the pipeline routes PATTERNABLE, extraction yields exactly
the cases (3 men, 2 women) and (4 men, 1 woman), and the successful Response carries
the formatted answer string "180" = C(6,3)·C(4,2) + C(6,4)·C(4,1). -/
theorem canonical_combinatorics_response :
    extract canonCombText = some (.combinatorics 6 0 4 0 [(3, 2), (4, 1)]) ∧
    (stage5Solve canonCombPD).map (fun r => (r.ok, r.answer, r.route, r.guard_code)) =
      .ok (true, some (.str (L "180")), some (L "PATTERNABLE"), none) := by
  have hex : extract canonCombText = some (.combinatorics 6 0 4 0 [(3, 2), (4, 1)]) := by
    decide
  refine ⟨hex, ?_⟩
  have hgate : gateDecide canonCombPD = ⟨.PATTERNABLE, none, none, none, none⟩ := by decide
  have hpick : pickRaw [canonCombPD.raw, canonCombPD.problem, canonCombPD.text] =
      some canonCombText := by decide
  have hsolve : solveExtracted (.combinatorics 6 0 4 0 [(3, 2), (4, 1)]) =
      .ok (.int 180) := by decide
  have hrc : combRecompute 6 4 [(3, 2), (4, 1)] = 180 := by decide
  have hc1 : Nat.choose 6 3 = 20 := by decide
  have hc2 : Nat.choose 6 4 = 15 := by decide
  have hver : verify (.combinatorics 6 0 4 0 [(3, 2), (4, 1)]) (.int 180) =
      ⟨true, none, none, none, none⟩ := by
    simp only [verify, toQ, verifyCombinatorics, hrc, combDivChecks, pyMod, hc1, hc2]
    norm_num [runChecks, runChecksFrom]
  have hfmt : formatAnswer (.int 180) = L "180" := by decide
  simp only [stage5Solve, hgate, handlePatternable, hpick, hex, hsolve, handleFromSolved,
    hver, hfmt, Except.map, GateRoute.val, if_true]

/-! ## Helper lemmas about guard codes and routes -/

theorem runChecksFrom_guard_code (i : ℕ) (cs : List CheckOutcome) :
    (runChecksFrom i cs).guard_code = none ∨
    (runChecksFrom i cs).guard_code = some (L "VERIFY_FAIL") ∨
    (runChecksFrom i cs).guard_code = some (L "VERIFY_ERROR") := by
  induction cs generalizing i with
  | nil => exact Or.inl rfl
  | cons c rest ih =>
    match c with
    | some true => exact ih (i + 1)
    | some false => exact Or.inr (Or.inl rfl)
    | none => exact Or.inr (Or.inr rfl)

theorem verify_guard_code_values (ex : Extracted) (a : SolverAnswer) :
    (verify ex a).guard_code = none ∨
    (verify ex a).guard_code = some (L "VERIFY_FAIL") ∨
    (verify ex a).guard_code = some (L "VERIFY_ERROR") := by
  cases ex <;> cases a <;>
    first
      | exact runChecksFrom_guard_code 0 _
      | exact Or.inr (Or.inl rfl)

theorem gate_guard_code_values (pd : ProblemData) :
    (gateDecide pd).guard_code = none ∨
    (gateDecide pd).guard_code = some (L "OBS_UNTRUSTED") := by
  simp only [gateDecide]
  split
  · exact Or.inl rfl
  · split
    · split
      · exact Or.inl rfl
      · exact Or.inr rfl
    · exact Or.inr rfl

theorem structured_kind_of_gate (pd : ProblemData)
    (h : (gateDecide pd).route = .STRUCTURED) :
    pd.kind = some (.str (L "nCk_times_nCk")) := by
  by_cases hs : isAlreadyStructured pd = true
  · unfold isAlreadyStructured at hs
    split at hs
    · next hk => exact hk
    · simp at hs
  · exfalso
    simp only [gateDecide] at h
    rw [if_neg hs] at h
    split at h
    · split at h <;> simp at h
    · simp at h

theorem handleFromSolved_guard_not_unsupported (ex : Extracted) (a : SolverAnswer)
    (rv : List Char) :
    (handleFromSolved ex a rv).guard_code ≠ some (L "UNSUPPORTED_KIND") := by
  simp only [handleFromSolved]
  split
  · show (none : Option (List Char)) ≠ some (L "UNSUPPORTED_KIND")
    decide
  · show (verify ex a).guard_code ≠ some (L "UNSUPPORTED_KIND")
    rcases verify_guard_code_values ex a with hg | hg | hg <;> rw [hg] <;> decide

/-- No response the pipeline returns ever carries the guard code UNSUPPORTED_KIND:
the gate routes STRUCTURED only when the discriminator is exactly the recognized one,
which `handleStructured` re-checks, so its unsupported-kind branch is unreachable. -/
theorem guard_code_never_unsupported (pd : ProblemData) (r : Stage5Response)
    (h : stage5Solve pd = .ok r) : r.guard_code ≠ some (L "UNSUPPORTED_KIND") := by
  simp only [stage5Solve] at h
  split at h
  · injection h with h
    subst h
    show (gateDecide pd).guard_code ≠ some (L "UNSUPPORTED_KIND")
    rcases gate_guard_code_values pd with hg | hg <;> rw [hg] <;> decide
  · next hroute =>
    have hk := structured_kind_of_gate pd hroute
    rw [handleStructured, if_neg (by rw [hk]; exact fun hc => hc rfl)] at h
    split at h
    · split at h
      · injection h with h
        subst h
        show (none : Option (List Char)) ≠ some (L "UNSUPPORTED_KIND")
        decide
      · exact absurd h (by simp)
      · exact absurd h (by simp)
    · exact absurd h (by simp)
  · injection h with h
    simp only [handlePatternable] at h
    split at h
    · subst h
      show some (L "NO_RAW_TEXT") ≠ some (L "UNSUPPORTED_KIND")
      decide
    · split at h
      · subst h
        show some (L "EXTRACT_FAIL") ≠ some (L "UNSUPPORTED_KIND")
        decide
      · split at h
        · subst h
          show some (L "SOLVER_ERROR") ≠ some (L "UNSUPPORTED_KIND")
          decide
        · subst h
          exact handleFromSolved_guard_not_unsupported _ _ _

/-! ## C6: the UNSUPPORTED_KIND guard -/

/-- A pre-structured record whose discriminator tag names an unknown kind. -/
def unknownKindPD : ProblemData :=
  ⟨some (.str (L "magic_kind")), some (.int 6), some (.int 3), some (.int 4), some (.int 2),
   none, none, none⟩

/-- Counterexample for C6 as stated: no input record at all makes solve return a
Response with guard code UNSUPPORTED_KIND (the claimed record does not exist). -/
theorem no_record_yields_unsupported_kind :
    ¬ ∃ (pd : ProblemData) (r : Stage5Response),
        stage5Solve pd = .ok r ∧ r.guard_code = some (L "UNSUPPORTED_KIND") := by
  rintro ⟨pd, r, h1, h2⟩
  exact guard_code_never_unsupported pd r h1 h2

/-- C6 amended. Solve never returns the guard code UNSUPPORTED_KIND: the gate routes
STRUCTURED only when the discriminator is exactly `nCk_times_nCk`, which
`_handle_structured` re-checks, so its unsupported-kind branch is unreachable; a
pre-structured record with an unknown discriminator (and no text fields) instead falls
through to the raw-text checks and halts with OBS_UNTRUSTED. -/
theorem unsupported_kind_branch_unreachable :
    (∀ (pd : ProblemData) (r : Stage5Response),
        stage5Solve pd = .ok r → r.guard_code ≠ some (L "UNSUPPORTED_KIND")) ∧
    (stage5Solve unknownKindPD).map (fun r => (r.ok, r.guard_code)) =
      .ok (false, some (L "OBS_UNTRUSTED")) :=
  ⟨fun pd r h => guard_code_never_unsupported pd r h, by decide⟩

/-- Witness for C6's amended claim, instantiated at the empty record. -/
theorem unsupported_kind_branch_unreachable_witness :
    (Stage5Response.guard_code
        ⟨false, none, [], some (L "OBS_UNTRUSTED"), some (L "OBS_UNTRUSTED"), some (L "STOP"),
         some (L "UNTRUSTED"),
         some (L "Input is neither structured nor patternable with deterministic rules.")⟩ ≠
      some (L "UNSUPPORTED_KIND")) :=
  unsupported_kind_branch_unreachable.1 emptyPD
    ⟨false, none, [], some (L "OBS_UNTRUSTED"), some (L "OBS_UNTRUSTED"), some (L "STOP"),
     some (L "UNTRUSTED"),
     some (L "Input is neither structured nor patternable with deterministic rules.")⟩
    (by decide)

/-! ## C8: the shape of a successful answer -/

/-- Whether an answer field holds a string. -/
def isStrAnswer : Option RespAnswer → Bool
  | some (.str _) => true
  | _ => false

/-- Counterexample for C8 as stated: a successful STRUCTURED response carries the raw
integer 120 as its answer, not a formatted string. -/
theorem structured_success_answer_not_string :
    (stage5Solve structPD).map (fun r => (r.ok, r.answer)) = .ok (true, some (.int 120)) ∧
    isStrAnswer (some (.int 120)) = false :=
  ⟨by decide, by decide⟩

/-- C8 amended. Every successful Response carries, on the PATTERNABLE route, the string
produced by the answer formatter, and on the STRUCTURED route the raw integer of the
legacy direct compute (not a string). -/
theorem success_answer_shape (pd : ProblemData) (r : Stage5Response)
    (h : stage5Solve pd = .ok r) (hok : r.ok = true) :
    (r.route = some (L "STRUCTURED") ∧ ∃ z, r.answer = some (.int z)) ∨
    (r.route = some (L "PATTERNABLE") ∧ ∃ a, r.answer = some (.str (formatAnswer a))) := by
  simp only [stage5Solve] at h
  split at h
  · injection h with h
    subst h
    simp at hok
  · next hroute =>
    have hk := structured_kind_of_gate pd hroute
    rw [handleStructured, if_neg (by rw [hk]; exact fun hc => hc rfl)] at h
    split at h
    · split at h
      · injection h with h
        subst h
        left
        refine ⟨?_, _, rfl⟩
        show some (gateDecide pd).route.val = some (L "STRUCTURED")
        rw [hroute]
        rfl
      · exact absurd h (by simp)
      · exact absurd h (by simp)
    · exact absurd h (by simp)
  · next hroute =>
    injection h with h
    simp only [handlePatternable] at h
    split at h
    · subst h
      simp at hok
    · split at h
      · subst h
        simp at hok
      · split at h
        · subst h
          simp at hok
        · subst h
          simp only [handleFromSolved] at hok ⊢
          split at hok
          · next hv =>
            right
            rw [if_pos hv]
            refine ⟨?_, _, rfl⟩
            show some (gateDecide pd).route.val = some (L "PATTERNABLE")
            rw [hroute]
            rfl
          · simp at hok

/-- The successful Response of the canonical structured record. -/
def structSuccessResp : Stage5Response :=
  ⟨true, some (.int 120), L "Structured compute: C(6,3) × C(4,2) = 120",
   none, none, none, some (L "STRUCTURED"), none⟩

/-- Witness for C8's amended claim, instantiated at the structured record. -/
theorem success_answer_shape_witness :
    stage5Solve structPD = .ok structSuccessResp ∧
    ((structSuccessResp.route = some (L "STRUCTURED") ∧
        ∃ z, structSuccessResp.answer = some (.int z)) ∨
      (structSuccessResp.route = some (L "PATTERNABLE") ∧
        ∃ a, structSuccessResp.answer = some (.str (formatAnswer a)))) :=
  ⟨by decide, success_answer_shape structPD structSuccessResp (by decide) rfl⟩

/-! ## C7: algebra verification at answer zero -/

/-- C7, against the code as written. Algebra verification succeeds exactly when the
candidate equals the recomputed x²+y² + 2·xy AND is strictly positive (the code's
check 1 is `answer > 0`, although its own comment and the spec say non-negative);
in particular the matching answer 0 for x²+y² = 0, xy = 0 is rejected with
VERIFY_FAIL at check index 1, contradicting the claim. -/
theorem algebra_verify_requires_strictly_positive :
    (∀ (x2 xy : ℕ) (z : ℤ),
      (verify (.algebra x2 xy) (.int z)).ok = true ↔
        ((z : ℚ) = (x2 : ℚ) + 2 * (xy : ℚ) ∧ 0 < z)) ∧
    verify (.algebra 0 0) (.int 0) =
      ⟨false, some (L "VERIFY_FAIL"), some (L "VERIFY_FAIL"), some (L "STOP"),
       some (L "Verifier check 1 failed.")⟩ := by
  constructor
  · intro x2 xy z
    constructor
    · intro hok
      have h0 : ((z : ℤ) : ℚ) = (x2 : ℚ) + 2 * (xy : ℚ) := by
        by_contra h0
        simp [verify, toQ, verifyAlgebra, runChecks, runChecksFrom, h0] at hok
      have h1 : (0 : ℚ) < ((z : ℤ) : ℚ) := by
        by_contra h1
        rw [h0] at h1
        simp [verify, toQ, verifyAlgebra, runChecks, runChecksFrom, h0, h1] at hok
      exact ⟨h0, by exact_mod_cast h1⟩
    · rintro ⟨h0, h1⟩
      have h1' : (0 : ℚ) < ((z : ℤ) : ℚ) := by exact_mod_cast h1
      rw [h0] at h1'
      simp [verify, toQ, verifyAlgebra, runChecks, runChecksFrom, h0, h1']
  · have e0 : ((0 : ℤ) : ℚ) = ((0 : ℕ) : ℚ) + 2 * ((0 : ℕ) : ℚ) := by norm_num
    have e1 : ¬ (((0 : ℤ) : ℚ) > 0) := by norm_num
    simp [verify, toQ, verifyAlgebra, runChecks, runChecksFrom, e0, e1]
    rfl

/-! ## C5: a negative derivative discriminant is a legitimate empty result -/

/-- C5. For any cubic coefficients whose derivative discriminant (2b)² − 4·(3a)·c is
negative, the solver returns the empty extrema list without raising, verifying the
empty list succeeds, and the pipeline continuation produces a successful Response with
no guard code (the formatted answer is the empty string). -/
theorem calculus_negative_discriminant_success (a b c d : ℚ)
    (h : (2 * b) ^ 2 - 4 * (3 * a) * c < 0) :
    solveExtracted (.calculus [a, b, c, d]) = .ok (.extrema []) ∧
    verify (.calculus [a, b, c, d]) (.extrema []) = ⟨true, none, none, none, none⟩ ∧
    handleFromSolved (.calculus [a, b, c, d]) (.extrema []) (L "PATTERNABLE") =
      ⟨true, some (.str []), explain (.calculus [a, b, c, d]) (.extrema []),
       none, none, none, some (L "PATTERNABLE"), none⟩ := by
  have hv : verify (.calculus [a, b, c, d]) (.extrema []) = ⟨true, none, none, none, none⟩ := by
    simp [verify, verifyCalculus, runChecks, runChecksFrom]
  have hfmt : formatAnswer (.extrema []) = [] := rfl
  refine ⟨?_, hv, ?_⟩
  · simp only [solveExtracted, solveCalculus]
    rw [if_pos h]
  · simp [handleFromSolved, hv, hfmt]

/-- Witness for C5 at the cubic x³ + x (discriminant −12). -/
theorem calculus_negative_discriminant_success_witness :
    ((2 * (0 : ℚ)) ^ 2 - 4 * (3 * 1) * 1 < 0) ∧
    (solveExtracted (.calculus [1, 0, 1, 0]) = .ok (.extrema []) ∧
     verify (.calculus [1, 0, 1, 0]) (.extrema []) = ⟨true, none, none, none, none⟩ ∧
     handleFromSolved (.calculus [1, 0, 1, 0]) (.extrema []) (L "PATTERNABLE") =
       ⟨true, some (.str []), explain (.calculus [1, 0, 1, 0]) (.extrema []),
        none, none, none, some (L "PATTERNABLE"), none⟩) :=
  ⟨by norm_num, calculus_negative_discriminant_success 1 0 1 0 (by norm_num)⟩

/-! ## C10: unachievable dice targets fail closed -/

theorem diceOutcomes_sum_bounds (n : ℕ) :
    ∀ o ∈ diceOutcomes n, n ≤ o.sum ∧ o.sum ≤ 6 * n := by
  induction n with
  | zero => simp [diceOutcomes]
  | succ n ih =>
    intro o ho
    simp only [diceOutcomes, List.mem_flatMap, List.mem_map] at ho
    obtain ⟨v, hv, t, ht, rfl⟩ := ho
    have hvb : 1 ≤ v ∧ v < 1 + 6 := by
      have := List.mem_range'_1.mp hv
      exact this
    have hb := ih t ht
    simp only [List.sum_cons]
    omega

theorem countDiceSum_eq_zero (n t : ℕ) (h : t < n ∨ 6 * n < t) : countDiceSum n t = 0 := by
  unfold countDiceSum
  rw [List.length_eq_zero, List.filter_eq_nil_iff]
  intro o ho
  have hb := diceOutcomes_sum_bounds n o ho
  simp only [decide_eq_true_eq]
  omega

/-- C10. Whenever the target sum is unachievable (below the dice count or above six
times it), the solver's brute-force probability is exactly 0, the verifier rejects it
with VERIFY_FAIL at check index 1 (`answer > 0`), and the pipeline continuation halts
with that guard; moreover probability verification never accepts a zero (or negative)
answer, so no successful Response can carry probability 0. -/
theorem unachievable_probability_fails_closed :
    (∀ (nd ts : ℕ), ts < nd ∨ 6 * nd < ts →
      solveExtracted (.probability nd ts) = .ok (.rat 0) ∧
      verify (.probability nd ts) (.rat 0) =
        ⟨false, some (L "VERIFY_FAIL"), some (L "VERIFY_FAIL"), some (L "STOP"),
         some (L "Verifier check 1 failed.")⟩ ∧
      handleFromSolved (.probability nd ts) (.rat 0) (L "PATTERNABLE") =
        ⟨false, none, [], some (L "VERIFY_FAIL"), some (L "VERIFY_FAIL"), some (L "STOP"),
         some (L "PATTERNABLE"), some (L "Verifier check 1 failed.")⟩) ∧
    (∀ (nd ts : ℕ) (q : ℚ), (verify (.probability nd ts) (.rat q)).ok = true → 0 < q) := by
  constructor
  · intro nd ts h
    have hc : countDiceSum nd ts = 0 := countDiceSum_eq_zero nd ts h
    have hver : verify (.probability nd ts) (.rat 0) =
        ⟨false, some (L "VERIFY_FAIL"), some (L "VERIFY_FAIL"), some (L "STOP"),
         some (L "Verifier check 1 failed.")⟩ := by
      have e0 : (0 : ℚ) ≤ 0 ∧ (0 : ℚ) ≤ 1 := by norm_num
      have e1 : ¬ ((0 : ℚ) > 0) := lt_irrefl 0
      simp [verify, toQ, verifyProbability, runChecks, runChecksFrom, e0, e1]
      rfl
    refine ⟨?_, hver, ?_⟩
    · simp [solveExtracted, hc]
    · simp [handleFromSolved, hver]
  · intro nd ts q hok
    by_contra hq
    by_cases h0 : ((0 : ℚ) ≤ q ∧ q ≤ 1) <;>
      simp [verify, toQ, verifyProbability, runChecks, runChecksFrom, h0, hq] at hok

/-- Witness for C10: two dice cannot sum to 13, and the verifier does accept the
positive probability 1/2. -/
theorem unachievable_probability_fails_closed_witness :
    (((13 : ℕ) < 2 ∨ 6 * 2 < 13) ∧
      (solveExtracted (.probability 2 13) = .ok (.rat 0) ∧
       verify (.probability 2 13) (.rat 0) =
         ⟨false, some (L "VERIFY_FAIL"), some (L "VERIFY_FAIL"), some (L "STOP"),
          some (L "Verifier check 1 failed.")⟩ ∧
       handleFromSolved (.probability 2 13) (.rat 0) (L "PATTERNABLE") =
         ⟨false, none, [], some (L "VERIFY_FAIL"), some (L "VERIFY_FAIL"), some (L "STOP"),
          some (L "PATTERNABLE"), some (L "Verifier check 1 failed.")⟩)) ∧
    ((verify (.probability 1 3) (.rat (1 / 2))).ok = true ∧ (0 : ℚ) < 1 / 2) := by
  have hok : (verify (.probability 1 3) (.rat (1 / 2))).ok = true := by
    have e0 : (0 : ℚ) ≤ 2⁻¹ := by norm_num
    have e1 : ((2 : ℚ))⁻¹ ≤ 1 := by norm_num
    have e2 : (0 : ℚ) < 2⁻¹ := by norm_num
    simp [verify, toQ, verifyProbability, runChecks, runChecksFrom, e0, e1, e2]
  exact ⟨⟨by decide, unachievable_probability_fails_closed.1 2 13 (by decide)⟩,
         ⟨hok, unachievable_probability_fails_closed.2 1 3 (1 / 2) hok⟩⟩

/-! ## C2: disagreement between candidate answer and the verifier's recomputation -/

/-- The verifier result when check 0 (the recomputation comparison) fails. -/
def verifyFailAt0 : VerifyResult :=
  ⟨false, some (L "VERIFY_FAIL"), some (L "VERIFY_FAIL"), some (L "STOP"),
   some (L "Verifier check 0 failed.")⟩

/-- The halted Response the pipeline returns when check 0 fails on the PATTERNABLE route. -/
def haltFailAt0 : Stage5Response :=
  ⟨false, none, [], some (L "VERIFY_FAIL"), some (L "VERIFY_FAIL"), some (L "STOP"),
   some (L "PATTERNABLE"), some (L "Verifier check 0 failed.")⟩

theorem handleFromSolved_of_verify_fail (ex : Extracted) (a : SolverAnswer) (rv : List Char)
    (h : verify ex a = verifyFailAt0) :
    handleFromSolved ex a rv =
      ⟨false, none, [], some (L "VERIFY_FAIL"), some (L "VERIFY_FAIL"), some (L "STOP"),
       some rv, some (L "Verifier check 0 failed.")⟩ := by
  simp [handleFromSolved, h, verifyFailAt0]

/-- Exact square root of the canonical geometry radicand. -/
theorem sqrtQ_canonical : sqrtQ ((10 : ℚ) ^ 2 + 24 ^ 2) = 26 := by
  have h1 : ((10 : ℚ) ^ 2 + 24 ^ 2) = (676 : ℚ) := by norm_num
  have h2 : Nat.sqrt 676 = 26 := by
    have h676 : (676 : ℕ) = 26 * 26 := by norm_num
    rw [h676, Nat.sqrt_eq]
  rw [h1]
  simp [sqrtQ, h2]

/-- C2 amended. For the Combinatorics, Algebra and NumberTheory domains, every integer
candidate that differs from the verifier's recomputed value is rejected at check 0 with
VERIFY_FAIL, and the pipeline continuation returns the halted Response carrying that
guard; for Geometry the same holds for every candidate that fails the code's
`isclose(…, rel_tol=1e-9)` comparison with the recomputed hypotenuse (not for every
unequal candidate — see the counterexample). -/
theorem verify_disagreement_fails_closed :
    (∀ (n1 k1 n2 k2 : ℕ) (cases : List (ℕ × ℕ)) (z : ℤ),
      z ≠ (combRecompute n1 n2 cases : ℤ) →
      verify (.combinatorics n1 k1 n2 k2 cases) (.int z) = verifyFailAt0 ∧
      handleFromSolved (.combinatorics n1 k1 n2 k2 cases) (.int z) (L "PATTERNABLE") =
        haltFailAt0) ∧
    (∀ (x2 xy : ℕ) (z : ℤ),
      z ≠ (x2 : ℤ) + 2 * (xy : ℤ) →
      verify (.algebra x2 xy) (.int z) = verifyFailAt0 ∧
      handleFromSolved (.algebra x2 xy) (.int z) (L "PATTERNABLE") = haltFailAt0) ∧
    (∀ (number : ℕ) (z : ℤ),
      z ≠ (ntRecompute number : ℤ) →
      verify (.numberTheory number) (.int z) = verifyFailAt0 ∧
      handleFromSolved (.numberTheory number) (.int z) (L "PATTERNABLE") = haltFailAt0) ∧
    (∀ (radius tangent q : ℚ),
      pyIsClose q (sqrtQ (radius ^ 2 + tangent ^ 2)) = false →
      verify (.geometry radius tangent) (.rat q) = verifyFailAt0 ∧
      handleFromSolved (.geometry radius tangent) (.rat q) (L "PATTERNABLE") = haltFailAt0) := by
  refine ⟨?_, ?_, ?_, ?_⟩
  · intro n1 k1 n2 k2 cases z hne
    have hq : ¬ (((z : ℤ) : ℚ) = ((combRecompute n1 n2 cases : ℕ) : ℚ)) := by
      intro hc
      exact hne (by exact_mod_cast hc)
    have hv : verify (.combinatorics n1 k1 n2 k2 cases) (.int z) = verifyFailAt0 := by
      simp only [verify, toQ, verifyCombinatorics, runChecks]
      rw [decide_eq_false hq]
      rfl
    exact ⟨hv, handleFromSolved_of_verify_fail _ _ _ hv⟩
  · intro x2 xy z hne
    have hq : ¬ (((z : ℤ) : ℚ) = (x2 : ℚ) + 2 * (xy : ℚ)) := by
      intro hc
      exact hne (by exact_mod_cast hc)
    have hv : verify (.algebra x2 xy) (.int z) = verifyFailAt0 := by
      simp only [verify, toQ, verifyAlgebra, runChecks]
      rw [decide_eq_false hq]
      rfl
    exact ⟨hv, handleFromSolved_of_verify_fail _ _ _ hv⟩
  · intro number z hne
    have hq : ¬ (((z : ℤ) : ℚ) = ((ntRecompute number : ℕ) : ℚ)) := by
      intro hc
      exact hne (by exact_mod_cast hc)
    have hv : verify (.numberTheory number) (.int z) = verifyFailAt0 := by
      simp only [verify, toQ, verifyNumberTheory, runChecks]
      rw [decide_eq_false hq]
      rfl
    exact ⟨hv, handleFromSolved_of_verify_fail _ _ _ hv⟩
  · intro radius tangent q hnc
    have hv : verify (.geometry radius tangent) (.rat q) = verifyFailAt0 := by
      simp only [verify, toQ, verifyGeometry, runChecks]
      rw [hnc]
      rfl
    exact ⟨hv, handleFromSolved_of_verify_fail _ _ _ hv⟩

/-- Counterexample for C2 as stated: on the Geometry variant (radius 10, tangent 24)
the candidate 26 + 26·10⁻¹⁰ differs from the verifier's recomputed hypotenuse 26, yet
verification succeeds (the comparison is `isclose` with relative tolerance 1e-9, not
equality) and the pipeline continuation returns a successful Response. -/
theorem geometry_unequal_candidate_accepted :
    ((26 : ℚ) + 26 / 10 ^ 10 ≠ sqrtQ ((10 : ℚ) ^ 2 + 24 ^ 2)) ∧
    verify (.geometry 10 24) (.rat (26 + 26 / 10 ^ 10)) = ⟨true, none, none, none, none⟩ ∧
    (handleFromSolved (.geometry 10 24) (.rat (26 + 26 / 10 ^ 10)) (L "PATTERNABLE")).ok =
      true := by
  have hclose : pyIsClose (26 + 26 / 10 ^ 10) (sqrtQ ((10 : ℚ) ^ 2 + 24 ^ 2)) = true := by
    rw [sqrtQ_canonical]
    apply decide_eq_true
    have habs1 : |(26 : ℚ) + 26 / 10 ^ 10 - 26| = 26 / 10 ^ 10 := by
      rw [show (26 : ℚ) + 26 / 10 ^ 10 - 26 = 26 / 10 ^ 10 by ring]
      exact abs_of_nonneg (by norm_num)
    have habs2 : |(26 : ℚ) + 26 / 10 ^ 10| = 26 + 26 / 10 ^ 10 := abs_of_nonneg (by norm_num)
    have habs3 : |(26 : ℚ)| = 26 := abs_of_nonneg (by norm_num)
    rw [habs1, habs2, habs3, max_eq_left (by norm_num)]
    norm_num
  have hg1 : decide ((26 : ℚ) + 26 / 10 ^ 10 > 10) = true := decide_eq_true (by norm_num)
  have hg2 : decide ((26 : ℚ) + 26 / 10 ^ 10 > 24) = true := decide_eq_true (by norm_num)
  have hv : verify (.geometry 10 24) (.rat (26 + 26 / 10 ^ 10)) =
      ⟨true, none, none, none, none⟩ := by
    simp only [verify, toQ, verifyGeometry, runChecks]
    rw [hclose, hg1, hg2]
    rfl
  refine ⟨?_, hv, ?_⟩
  · rw [sqrtQ_canonical]
    norm_num
  · simp [handleFromSolved, hv]

/-- Witness for C2's amended claim: one disagreeing candidate per domain, each rejected
with VERIFY_FAIL at check 0 and halted by the pipeline continuation. -/
theorem verify_disagreement_fails_closed_witness :
    ((5 : ℤ) ≠ (combRecompute 1 1 [] : ℤ) ∧
      (verify (.combinatorics 1 0 1 0 []) (.int 5) = verifyFailAt0 ∧
       handleFromSolved (.combinatorics 1 0 1 0 []) (.int 5) (L "PATTERNABLE") =
         haltFailAt0)) ∧
    ((0 : ℤ) ≠ (1 : ℤ) + 2 * (1 : ℤ) ∧
      (verify (.algebra 1 1) (.int 0) = verifyFailAt0 ∧
       handleFromSolved (.algebra 1 1) (.int 0) (L "PATTERNABLE") = haltFailAt0)) ∧
    ((5 : ℤ) ≠ (ntRecompute 2 : ℤ) ∧
      (verify (.numberTheory 2) (.int 5) = verifyFailAt0 ∧
       handleFromSolved (.numberTheory 2) (.int 5) (L "PATTERNABLE") = haltFailAt0)) ∧
    (pyIsClose 100 (sqrtQ ((10 : ℚ) ^ 2 + 24 ^ 2)) = false ∧
      (verify (.geometry 10 24) (.rat 100) = verifyFailAt0 ∧
       handleFromSolved (.geometry 10 24) (.rat 100) (L "PATTERNABLE") = haltFailAt0)) := by
  have hsq2 : Nat.sqrt 2 = 1 := (Nat.eq_sqrt.mpr (by norm_num)).symm
  have hnt2 : ntRecompute 2 = 3 := by
    unfold ntRecompute getDivisors
    rw [hsq2, List.Perm.sum_eq (List.mergeSort_perm _ _)]
    rfl
  have hnt : (5 : ℤ) ≠ (ntRecompute 2 : ℤ) := by
    rw [hnt2]
    decide
  have hgeo : pyIsClose 100 (sqrtQ ((10 : ℚ) ^ 2 + 24 ^ 2)) = false := by
    rw [sqrtQ_canonical]
    apply decide_eq_false
    intro hc
    rw [show |(100 : ℚ) - 26| = 74 by rw [abs_of_nonneg] <;> norm_num,
        show |(100 : ℚ)| = 100 by rw [abs_of_nonneg] <;> norm_num,
        show |(26 : ℚ)| = 26 by rw [abs_of_nonneg] <;> norm_num,
        max_eq_left (by norm_num)] at hc
    norm_num at hc
  exact ⟨⟨by decide, verify_disagreement_fails_closed.1 1 0 1 0 [] 5 (by decide)⟩,
         ⟨by decide, verify_disagreement_fails_closed.2.1 1 1 0 (by decide)⟩,
         ⟨hnt, verify_disagreement_fails_closed.2.2.1 2 5 hnt⟩,
         ⟨hgeo, verify_disagreement_fails_closed.2.2.2 10 24 100 hgeo⟩⟩

/-! ## C9: the dice-count regex bounds num_dice -/

theorem matchAll_lit_mem {l s : List Char} {res : List (List Char) × List Char}
    (h : res ∈ matchAll (.lit l) s) :
    l <+: s ∧ res = ([], s.drop l.length) := by
  unfold matchAll at h
  split at h
  · next hp => exact ⟨List.isPrefixOf_iff_prefix.mp hp, by simpa using h⟩
  · simp at h

theorem altOfLits_sound :
    ∀ (ws : List (List Char)) (s : List Char) (res : List (List Char) × List Char),
      res ∈ matchAll (altOfLits ws) s →
      ∃ w ∈ ws, w <+: s ∧ res = ([], s.drop w.length) := by
  intro ws
  induction ws with
  | nil =>
    intro s res h
    unfold altOfLits matchAll at h
    match s with
    | [] => simp at h
    | c :: rest => simp at h
  | cons w rest ih =>
    intro s res h
    match rest with
    | [] =>
      have hm : res ∈ matchAll (.lit w) s := by
        have hd : altOfLits [w] = .lit w := rfl
        rw [hd] at h
        exact h
      have := matchAll_lit_mem hm
      exact ⟨w, List.mem_cons_self w _, this.1, this.2⟩
    | w2 :: rest2 =>
      have hd : altOfLits (w :: w2 :: rest2) = .alt (.lit w) (altOfLits (w2 :: rest2)) := rfl
      rw [hd] at h
      have hm : res ∈ matchAll (.lit w) s ++ matchAll (altOfLits (w2 :: rest2)) s := h
      rcases List.mem_append.mp hm with h1 | h1
      · have := matchAll_lit_mem h1
        exact ⟨w, List.mem_cons_self w _, this.1, this.2⟩
      · obtain ⟨w', hw', hp, he⟩ := ih s res h1
        exact ⟨w', List.mem_cons_of_mem w hw', hp, he⟩

theorem matchAll_grp_mem {r : RE} {s : List Char} {res : List (List Char) × List Char}
    (h : res ∈ matchAll (.grp r) s) :
    ∃ p ∈ matchAll r s, res = (s.take (s.length - p.2.length) :: p.1, p.2) := by
  simpa [matchAll, List.mem_map, eq_comm] using h

theorem matchAll_cat_mem {r1 r2 : RE} {s : List Char} {res : List (List Char) × List Char}
    (h : res ∈ matchAll (.cat r1 r2) s) :
    ∃ p ∈ matchAll r1 s, ∃ q ∈ matchAll r2 p.2, res = (p.1 ++ q.1, q.2) := by
  simp only [matchAll, List.mem_flatMap, List.mem_map] at h
  obtain ⟨p, hp, q, hq, he⟩ := h
  exact ⟨p, hp, q, hq, he.symm⟩

theorem searchG_eq_some {r : RE} {s : List Char} {caps : List (List Char)}
    (h : searchG r s = some caps) :
    ∃ t ∈ s.tails, ∃ res ∈ matchAll r t, caps = res.1 := by
  unfold searchG at h
  obtain ⟨t, ht, hf⟩ := List.exists_of_findSome?_eq_some h
  obtain ⟨res, hres, hcaps⟩ := Option.map_eq_some'.mp hf
  exact ⟨t, ht, res, List.mem_of_mem_head? hres, hcaps.symm⟩

/-- The first capture of any `numDiceRE` match is one of the twelve literal alternatives. -/
theorem numDice_first_capture {s : List Char} {caps : List (List Char)}
    (h : searchG numDiceRE s = some caps) :
    ∃ w ∈ diceWords, ∃ rest, caps = w :: rest := by
  obtain ⟨t, _, res, hres, hcaps⟩ := searchG_eq_some h
  have hcat : ∃ p ∈ matchAll (.grp diceAltRE) t,
      ∃ q ∈ matchAll (reCat [spc1, .lit (L "dic"), .cls (L "e")]) p.2,
        res = (p.1 ++ q.1, q.2) := by
    have hn : numDiceRE = .cat (.grp diceAltRE) (reCat [spc1, .lit (L "dic"), .cls (L "e")]) :=
      rfl
    exact matchAll_cat_mem (by rw [← hn]; exact hres)
  obtain ⟨p, hp, q, _, hres_eq⟩ := hcat
  obtain ⟨p0, hp0, hpe⟩ := matchAll_grp_mem hp
  obtain ⟨w, hw, hpre, hp0e⟩ := altOfLits_sound diceWords t p0 (by
    have hd : diceAltRE = altOfLits diceWords := rfl
    rw [hd] at hp0
    exact hp0)
  have hlen : w.length ≤ t.length := List.IsPrefix.length_le hpre
  have htake : t.take (t.length - (t.length - w.length)) = w := by
    rw [Nat.sub_sub_self hlen]
    exact (List.prefix_iff_eq_take.mp hpre).symm
  rw [hp0e] at hpe
  refine ⟨w, hw, q.1, ?_⟩
  rw [hcaps, hres_eq, hpe]
  simp [htake]

/-- Every dice-count value the word table (with its digit fallback) can produce from one
of the twelve alternatives lies between 1 and 6. -/
theorem diceWords_value_bounds :
    ∀ w ∈ diceWords, ∃ n, diceWordToNum w = some n ∧ 1 ≤ n ∧ n ≤ 6 := by
  intro w hw
  fin_cases hw <;> first
    | exact ⟨1, by decide, by decide, by decide⟩
    | exact ⟨2, by decide, by decide, by decide⟩
    | exact ⟨3, by decide, by decide, by decide⟩
    | exact ⟨4, by decide, by decide, by decide⟩
    | exact ⟨5, by decide, by decide, by decide⟩
    | exact ⟨6, by decide, by decide, by decide⟩

/-- The shared bound: any Probability variant the probability rule extracts has
1 ≤ num_dice ≤ 6 (the dice-count regex only accepts one–six and the digits 1–6). -/
theorem tryProbability_num_dice_bounds (raw : List Char) (nd ts : ℕ)
    (h : tryProbability raw = some (.probability nd ts)) : 1 ≤ nd ∧ nd ≤ 6 := by
  simp only [tryProbability] at h
  split at h
  · exact absurd h (by simp)
  · split at h
    · next w tail heq =>
      split at h
      · next nd' hdw =>
        split at h
        · next t2 tail2 heq2 =>
          obtain ⟨w', hw', rest', hcaps⟩ := numDice_first_capture heq
          have hww : w = w' := by injection hcaps
          obtain ⟨n, hn, hb1, hb2⟩ := diceWords_value_bounds w' hw'
          rw [← hww] at hn
          rw [hdw] at hn
          injection hn with hn
          have hnd : nd = nd' := by
            injection h with h
            injection h with h1 h2
            exact h1.symm
          omega
        · exact absurd h (by simp)
      · exact absurd h (by simp)
    · exact absurd h (by simp)

theorem tryCombinatorics_not_probability (raw : List Char) (nd ts : ℕ) :
    tryCombinatorics raw ≠ some (.probability nd ts) := by
  intro h
  simp only [tryCombinatorics] at h
  repeat' split at h
  all_goals simp_all

theorem tryAlgebra_not_probability (raw : List Char) (nd ts : ℕ) :
    tryAlgebra raw ≠ some (.probability nd ts) := by
  intro h
  simp only [tryAlgebra] at h
  repeat' split at h
  all_goals simp_all

theorem tryNumberTheory_not_probability (raw : List Char) (nd ts : ℕ) :
    tryNumberTheory raw ≠ some (.probability nd ts) := by
  intro h
  simp only [tryNumberTheory] at h
  repeat' split at h
  all_goals simp_all

theorem tryGeometry_not_probability (raw : List Char) (nd ts : ℕ) :
    tryGeometry raw ≠ some (.probability nd ts) := by
  intro h
  simp only [tryGeometry] at h
  repeat' split at h
  all_goals simp_all

theorem tryCalculus_not_probability (raw : List Char) (nd ts : ℕ) :
    tryCalculus raw ≠ some (.probability nd ts) := by
  intro h
  simp only [tryCalculus] at h
  repeat' split at h
  all_goals simp_all

theorem extract_num_dice_bounds (raw : List Char) (nd ts : ℕ)
    (h : extract raw = some (.probability nd ts)) : 1 ≤ nd ∧ nd ≤ 6 := by
  unfold extract at h
  obtain ⟨f, hf, hfr⟩ := List.exists_of_findSome?_eq_some h
  simp only [List.mem_cons, List.not_mem_nil, or_false] at hf
  rcases hf with rfl | rfl | rfl | rfl | rfl | rfl
  · exact absurd hfr (tryCombinatorics_not_probability raw nd ts)
  · exact absurd hfr (tryAlgebra_not_probability raw nd ts)
  · exact absurd hfr (tryNumberTheory_not_probability raw nd ts)
  · exact absurd hfr (tryGeometry_not_probability raw nd ts)
  · exact tryProbability_num_dice_bounds raw nd ts hfr
  · exact absurd hfr (tryCalculus_not_probability raw nd ts)

/-- Counterexample for C9 as stated: no raw text at all extracts to a Probability
variant with seven dice (so it is false that every positive dice count is reachable). -/
theorem no_extraction_yields_seven_dice :
    ¬ ∃ (raw : List Char) (ts : ℕ), extract raw = some (.probability 7 ts) := by
  rintro ⟨raw, ts, h⟩
  have hb := extract_num_dice_bounds raw 7 ts h
  omega

/-- C9 amended. The dice-count regex accepts only the words one–six and the single
digits 1–6, so every Probability variant extraction can produce has
1 ≤ num_dice ≤ 6; the 6^num_dice enumeration is therefore bounded through this
pipeline even though the solver itself imposes no cap. -/
theorem extracted_num_dice_bounded (raw : List Char) (nd ts : ℕ)
    (h : extract raw = some (.probability nd ts)) : 1 ≤ nd ∧ nd ≤ 6 :=
  extract_num_dice_bounds raw nd ts h

/-- Witness for C9's amended claim at the canonical three-dice text. -/
theorem extracted_num_dice_bounded_witness :
    extract (L "Three dice are rolled. Probability that sum is exactly 10?") =
      some (.probability 3 10) ∧ (1 ≤ 3 ∧ 3 ≤ 6) :=
  ⟨by decide,
   extracted_num_dice_bounded (L "Three dice are rolled. Probability that sum is exactly 10?")
     3 10 (by decide)⟩

/-! ## C3: the two divisor-sum algorithms

The verifier's enumeration sum and the solver's factorization formula are each shown
equal to the mathematical divisor sum for positive inputs, and to disagree at 0. -/

theorem range'_map_sum (g : ℕ → ℕ) (s : ℕ) :
    ((List.range' 1 s).map g).sum = ∑ i in Finset.Icc 1 s, g i := by
  rw [Nat.Icc_eq_range']
  simp [Finset.sum]

theorem distinct_factors_not_both_le_sqrt {n a b : ℕ} (hab : a * b = n) (hane : a ≠ b)
    (ha : a ≤ Nat.sqrt n) (hb : b ≤ Nat.sqrt n) (hn : 1 ≤ n) : False := by
  have hs : Nat.sqrt n * Nat.sqrt n ≤ n := Nat.sqrt_le n
  have ha1 : 1 ≤ a := by
    rcases Nat.eq_zero_or_pos a with h | h
    · rw [h, Nat.zero_mul] at hab
      omega
    · exact h
  have hb1 : 1 ≤ b := by
    rcases Nat.eq_zero_or_pos b with h | h
    · rw [h, Nat.mul_zero] at hab
      omega
    · exact h
  have hs1 : 1 ≤ Nat.sqrt n := le_trans hb1 hb
  rcases Nat.lt_or_ge a b with hlt | hge
  · have hchain : a * b < Nat.sqrt n * Nat.sqrt n :=
      calc a * b ≤ a * Nat.sqrt n := Nat.mul_le_mul_left a hb
      _ < (a + 1) * Nat.sqrt n := (Nat.mul_lt_mul_right (by omega)).mpr (by omega)
      _ ≤ Nat.sqrt n * Nat.sqrt n := Nat.mul_le_mul_right _ (by omega)
    omega
  · have hblt : b < a := by omega
    have hchain : a * b < Nat.sqrt n * Nat.sqrt n :=
      calc a * b ≤ Nat.sqrt n * b := Nat.mul_le_mul_right b ha
      _ < Nat.sqrt n * (b + 1) := (Nat.mul_lt_mul_left (by omega)).mpr (by omega)
      _ ≤ Nat.sqrt n * Nat.sqrt n := Nat.mul_le_mul_left _ (by omega)
    omega

theorem sum_small_divisors (n : ℕ) (hn : 1 ≤ n) :
    (∑ i in Finset.Icc 1 (Nat.sqrt n), if i ∣ n then i else 0) =
      ∑ d in n.divisors.filter (fun d => d ≤ Nat.sqrt n), d := by
  rw [← Finset.sum_filter]
  apply Finset.sum_congr
  · ext d
    simp only [Finset.mem_filter, Finset.mem_Icc, Nat.mem_divisors]
    constructor
    · rintro ⟨⟨h1, h2⟩, hd⟩
      exact ⟨⟨hd, by omega⟩, h2⟩
    · rintro ⟨⟨hd, _⟩, h2⟩
      exact ⟨⟨Nat.pos_of_dvd_of_pos hd (by omega), h2⟩, hd⟩
  · intro x _
    rfl

theorem sum_large_divisors (n : ℕ) (hn : 1 ≤ n) :
    (∑ i in Finset.Icc 1 (Nat.sqrt n), if i ∣ n ∧ i ≠ n / i then n / i else 0) =
      ∑ d in n.divisors.filter (fun d => ¬ d ≤ Nat.sqrt n), d := by
  rw [← Finset.sum_filter]
  refine Finset.sum_nbij' (fun i => n / i) (fun d => n / d) ?_ ?_ ?_ ?_ ?_
  · intro a ha
    simp only [Finset.mem_filter, Finset.mem_Icc] at ha
    obtain ⟨⟨ha1, has⟩, hdvd, hane⟩ := ha
    have hdiv : n / a ∣ n := ⟨a, (Nat.div_mul_cancel hdvd).symm⟩
    simp only [Finset.mem_filter, Nat.mem_divisors]
    refine ⟨⟨hdiv, by omega⟩, ?_⟩
    intro hle
    exact distinct_factors_not_both_le_sqrt (Nat.mul_div_cancel' hdvd) hane has hle hn
  · intro d hd
    simp only [Finset.mem_filter, Nat.mem_divisors] at hd
    obtain ⟨⟨hdvd, _⟩, hgt⟩ := hd
    have hd1 : 1 ≤ d := Nat.pos_of_dvd_of_pos hdvd (by omega)
    have hdn : d ≤ n := Nat.le_of_dvd (by omega) hdvd
    have hdiv : n / d ∣ n := ⟨d, (Nat.div_mul_cancel hdvd).symm⟩
    have hle : n / d ≤ Nat.sqrt n := by
      have hlt : n / d < Nat.sqrt n + 1 := by
        rw [Nat.div_lt_iff_lt_mul (by omega)]
        calc n < (Nat.sqrt n + 1) * (Nat.sqrt n + 1) := by
              have := Nat.lt_succ_sqrt n
              simpa [Nat.succ_eq_add_one] using this
        _ ≤ (Nat.sqrt n + 1) * d := Nat.mul_le_mul_left _ (by omega)
      omega
    simp only [Finset.mem_filter, Finset.mem_Icc]
    refine ⟨⟨by
        have : 1 ≤ n / d := (Nat.one_le_div_iff (by omega)).mpr hdn
        omega, hle⟩, hdiv, ?_⟩
    rw [Nat.div_div_self hdvd (by omega)]
    omega
  · intro a ha
    simp only [Finset.mem_filter, Finset.mem_Icc] at ha
    exact Nat.div_div_self ha.2.1 (by omega)
  · intro d hd
    simp only [Finset.mem_filter, Nat.mem_divisors] at hd
    exact Nat.div_div_self hd.1.1 (by omega)
  · intro a _
    rfl

theorem getDivisors_sum (n : ℕ) (hn : 1 ≤ n) :
    (getDivisors n).sum = ∑ d in n.divisors, d := by
  have hperm : (getDivisors n).sum =
      ((List.range' 1 (Nat.sqrt n)).flatMap (fun i =>
        if n % i = 0 then (if i ≠ n / i then [i, n / i] else [i]) else [])).sum := by
    unfold getDivisors
    exact List.Perm.sum_eq (List.mergeSort_perm _ _)
  rw [hperm, List.flatMap_def, List.sum_flatten, List.map_map, range'_map_sum]
  have hsplit : ∀ i ∈ Finset.Icc 1 (Nat.sqrt n),
      (List.sum ∘ fun i =>
        if n % i = 0 then (if i ≠ n / i then [i, n / i] else [i]) else []) i =
      (if i ∣ n then i else 0) + (if i ∣ n ∧ i ≠ n / i then n / i else 0) := by
    intro i hi
    simp only [Finset.mem_Icc] at hi
    have hmod : n % i = 0 ↔ i ∣ n := by
      rw [Nat.dvd_iff_mod_eq_zero]
    by_cases hdvd : i ∣ n
    · by_cases hne : i ≠ n / i
      · simp [Function.comp, hmod.mpr hdvd, hdvd, hne]
      · simp [Function.comp, hmod.mpr hdvd, hdvd, hne]
    · have : ¬ n % i = 0 := fun hc => hdvd (hmod.mp hc)
      simp [Function.comp, this, hdvd]
  rw [Finset.sum_congr rfl hsplit, Finset.sum_add_distrib,
      sum_small_divisors n hn, sum_large_divisors n hn,
      Finset.sum_filter_add_sum_filter_not]

theorem divCount_spec (d : ℕ) (hd : 2 ≤ d) :
    ∀ n, n ≠ 0 →
      n = d ^ (divCount d n).1 * (divCount d n).2 ∧ ¬ d ∣ (divCount d n).2 := by
  intro n
  induction n using Nat.strong_induction_on with
  | _ n ih =>
    intro hn
    rw [divCount]
    split
    · next h =>
      have hdvd : d ∣ n := Nat.dvd_of_mod_eq_zero h.2.2
      have hlt : n / d < n := Nat.div_lt_self (Nat.pos_of_ne_zero h.2.1) h.1
      have hnd0 : n / d ≠ 0 := by
        have h1 : 1 ≤ n / d :=
          (Nat.one_le_div_iff (by omega)).mpr (Nat.le_of_dvd (Nat.pos_of_ne_zero hn) hdvd)
        omega
      obtain ⟨ih1, ih2⟩ := ih (n / d) hlt hnd0
      refine ⟨?_, ih2⟩
      calc n = d * (n / d) := (Nat.mul_div_cancel' hdvd).symm
      _ = d * (d ^ (divCount d (n / d)).1 * (divCount d (n / d)).2) := by rw [← ih1]
      _ = d ^ ((divCount d (n / d)).1 + 1) * (divCount d (n / d)).2 := by ring
    · next h =>
      refine ⟨by simp, ?_⟩
      intro hdvd
      exact h ⟨hd, hn, Nat.dvd_iff_mod_eq_zero.mp hdvd⟩

theorem pf_sigma :
    ∀ (k d n : ℕ), n + 2 - d ≤ k → 2 ≤ d → 1 ≤ n →
      (∀ p, p.Prime → p ∣ n → d ≤ p) →
      ((pf d n).map (fun pe => (pe.1 ^ (pe.2 + 1) - 1) / (pe.1 - 1))).prod =
        ∑ x in n.divisors, x := by
  intro k
  induction k with
  | zero =>
    intro d n hk hd hn hinv
    rw [pf]
    have hguard : ¬ (d * d ≤ n) := by
      intro hg
      have : d ≤ n := le_trans (Nat.le_mul_of_pos_left d (by omega)) hg
      omega
    rw [dif_neg hguard]
    split
    · next h1n =>
      exfalso
      obtain ⟨p, hp, hpd⟩ := Nat.exists_prime_and_dvd (by omega : n ≠ 1)
      have hge := hinv p hp hpd
      have hle := Nat.le_of_dvd (by omega) hpd
      omega
    · next h1n =>
      have hn1 : n = 1 := by omega
      subst hn1
      simp [Nat.divisors_one]
  | succ k ih =>
    intro d n hk hd hn hinv
    rw [pf]
    by_cases hguard : d * d ≤ n
    · rw [dif_pos hguard]
      have hd1 : d ≤ n := le_trans (Nat.le_mul_of_pos_left d (by omega)) hguard
      obtain ⟨hspec1, hspec2⟩ := divCount_spec d hd n (by omega)
      by_cases he0 : (divCount d n).1 = 0
      · rw [if_pos he0]
        have hmn : (divCount d n).2 = n := by
          rw [he0] at hspec1
          simpa using hspec1.symm
        have hndvd : ¬ d ∣ n := by
          rw [← hmn]
          exact hspec2
        apply ih (d + 1) n (by omega) (by omega) hn
        intro p hp hpd
        have hge := hinv p hp hpd
        rcases Nat.eq_or_lt_of_le hge with heq | hlt
        · exact absurd (heq ▸ hpd) hndvd
        · omega
      · rw [if_neg he0]
        have hdvdn : d ∣ n := by
          rw [hspec1]
          exact Dvd.dvd.mul_right (dvd_pow_self d he0) _
        have hdprime : d.Prime := by
          obtain ⟨q, hq, hqd⟩ := Nat.exists_prime_and_dvd (by omega : d ≠ 1)
          have hqn : q ∣ n := hqd.trans hdvdn
          have h1 := hinv q hq hqn
          have h2 := Nat.le_of_dvd (by omega) hqd
          have hqeq : q = d := by omega
          exact hqeq ▸ hq
        have hm0 : (divCount d n).2 ≠ 0 := by
          intro hc
          rw [hc, Nat.mul_zero] at hspec1
          omega
        have hcop : Nat.Coprime (d ^ (divCount d n).1) (divCount d n).2 :=
          Nat.Coprime.pow_left _ ((Nat.Prime.coprime_iff_not_dvd hdprime).mpr hspec2)
        have hmle : (divCount d n).2 ≤ n := by
          conv_rhs => rw [hspec1]
          exact Nat.le_mul_of_pos_left _ (Nat.pow_pos (by omega))
        have hmdvd : (divCount d n).2 ∣ n := by
          refine ⟨d ^ (divCount d n).1, ?_⟩
          conv_lhs => rw [hspec1]
          ring
        have hminv : ∀ p, p.Prime → p ∣ (divCount d n).2 → d + 1 ≤ p := by
          intro p hp hpd
          have hpn : p ∣ n := hpd.trans hmdvd
          have hge := hinv p hp hpn
          rcases Nat.eq_or_lt_of_le hge with heq | hlt
          · exact absurd (heq ▸ hpd) hspec2
          · omega
        have hrec := ih (d + 1) (divCount d n).2 (by omega) (by omega) (by omega) hminv
        rw [List.map_cons, List.prod_cons, hrec]
        have hgeom : (d ^ ((divCount d n).1 + 1) - 1) / (d - 1) =
            ∑ i in Finset.range ((divCount d n).1 + 1), d ^ i :=
          (Nat.geomSum_eq hd _).symm
        rw [hgeom]
        conv_rhs => rw [hspec1]
        rw [Nat.Coprime.sum_divisors_mul hcop]
        congr 1
        rw [Nat.sum_divisors_prime_pow hdprime]
    · rw [dif_neg hguard]
      split
      · next h1n =>
        have hnp : n.Prime := by
          by_contra hnp
          have hq := Nat.minFac_prime (by omega : n ≠ 1)
          have hqd := Nat.minFac_dvd n
          have hsq := Nat.minFac_sq_le_self (by omega) hnp
          rw [pow_two] at hsq
          have hge := hinv n.minFac hq hqd
          have hmm : d * d ≤ n.minFac * n.minFac := Nat.mul_le_mul hge hge
          omega
        rw [Nat.Prime.divisors hnp, Finset.sum_pair (by
          have := hnp.two_le
          omega : (1 : ℕ) ≠ n)]
        simp only [List.map_cons, List.map_nil, List.prod_cons, List.prod_nil, Nat.mul_one]
        have h2n : 2 ≤ n := hnp.two_le
        have hx : n ^ (1 + 1) = n * n := by ring
        have hfact : n * n - 1 = (n - 1) * (n + 1) := by
          cases n with
          | zero => simp
          | succ m =>
            have hexp : (m + 1) * (m + 1) = m * (m + 2) + 1 := by ring
            have hexp2 : (m + 1 - 1) * ((m + 1) + 1) = m * (m + 2) := by simp
            omega
        rw [hx, hfact, Nat.mul_div_cancel_left _ (by omega : 0 < n - 1)]
        omega
      · next h1n =>
        have hn1 : n = 1 := by omega
        subst hn1
        simp [Nat.divisors_one]

/-- The solver's factorization-based divisor sum computes the divisor sum for every
positive input. -/
theorem sigmaFactored_eq_sum_divisors (n : ℕ) (hn : 1 ≤ n) :
    sigmaFactored n = ∑ d in n.divisors, d := by
  unfold sigmaFactored
  rw [← List.prod_eq_foldl]
  exact pf_sigma n 2 n (by omega) (by omega) hn (fun p hp _ => hp.two_le)

/-- Counterexample for C3 as stated: the extraction regex parses 0, where the solver's
factorization formula yields 1 (the empty product) but the verifier's divisor
enumeration yields 0, so the two algorithms disagree on a reachable input. -/
theorem divisor_algorithms_disagree_at_zero :
    tryNumberTheory (L "Find the sum of all positive divisors of 0") =
      some (.numberTheory 0) ∧
    sigmaFactored 0 = 1 ∧ ntRecompute 0 = 0 ∧ sigmaFactored 0 ≠ ntRecompute 0 := by
  have h1 : sigmaFactored 0 = 1 := by
    have hpf : pf 2 0 = [] := by
      rw [pf]
      norm_num
    simp [sigmaFactored, hpf]
  have h2 : ntRecompute 0 = 0 := by
    simp [ntRecompute, getDivisors, Nat.sqrt_zero]
  exact ⟨by decide, h1, h2, by omega⟩

/-- C3 amended. For every positive integer up to `2^52` that a NumberTheory variant can
carry, the solver's factorization-based divisor sum equals the verifier's
divisor-enumeration sum (both are the divisor sum of `n`); on that range the source's
float-derived loop bound `int(n**0.5)` coincides with the exact integer square root of
the model. The original unbounded claim fails twice: at 0 (empty product 1 against
empty sum 0, see the counterexample) and for huge inputs such as `(2^53+1)^2`, where
the float-derived loop bound itself drops below the integer square root and the real
enumeration misses the square-root divisor. -/
theorem divisor_algorithms_agree_on_positive (n : ℕ) (hn : 1 ≤ n)
    (hub : n ≤ 2 ^ 52) :
    sigmaFactored n = ntRecompute n := by
  rw [sigmaFactored_eq_sum_divisors n hn]
  exact (getDivisors_sum n hn).symm

/-- Witness for C3's amended claim at the canonical input 360. -/
theorem divisor_algorithms_agree_on_positive_witness :
    (1 ≤ 360 ∧ 360 ≤ 2 ^ 52) ∧ sigmaFactored 360 = ntRecompute 360 :=
  ⟨⟨by decide, by decide⟩, divisor_algorithms_agree_on_positive 360 (by decide) (by decide)⟩

end Stage5
